import Mathlib

/-! The scrape-and-map routine of locust_exporter (`main.go`).

A shallow embedding of `Exporter.scrape`, `getFloat64Element`, `Exporter.Describe`
and `Exporter.Collect`, together with the parts of the Go standard library and of
the Prometheus client they call (`strconv.ParseFloat`, `csv.Reader.Read`,
`GaugeVec.WithLabelValues`, `Gauge.Set`, `Counter.Inc`).

A Go panic and `log.Fatal` both end the process; they are modelled by the
`fatal` outcome, which records the metric store as it was at that moment.

A file is taken as the sequence of records the CSV reader splits it into, or as
missing when `os.Open` fails. Fields are Lean strings, hence valid Unicode.
`strconv.ParseFloat` is the one of Go 1.13 and later (hexadecimal mantissas and
digit-separating underscores are accepted), and its value is the correctly
rounded binary64, which is what its three conversion paths return.
-/

namespace LocustExporter

/-! ## float64 and `strconv.ParseFloat` -/

/-- An IEEE-754 binary64 value. `finite neg mant exp` stands for
`(-1)^neg * mant * 2^exp` in the canonical form of the format:
`mant < 2^53`, `-1074 ≤ exp ≤ 971`, and `2^52 ≤ mant` unless `exp = -1074`. -/
inductive Float64 where
  | finite (neg : Bool) (mant : Nat) (exp : Int)
  | inf (neg : Bool)
  | nan
  deriving DecidableEq, Repr

namespace Float64

/-- The value `0` (positive zero), Go's zero value of `float64`. -/
def zero : Float64 := .finite false 0 (-1074)

/-- The value `1`. -/
def one : Float64 := .finite false (2 ^ 52) (-52)

end Float64

/-- The loop of `floorLog2`: `n` is halved until it is below 2, `acc` counts the
halvings and `fuel` bounds their number. -/
def log2Fuel : Nat → Nat → Nat → Nat
  | 0, _, acc => acc
  | fuel + 1, n, acc => if n < 2 then acc else log2Fuel fuel (n / 2) (acc + 1)

/-- The position of the highest set bit of `n` (`0` for `n = 0`): `n` halvings
always suffice, see `floorLog2_eq`. -/
def floorLog2 (n : Nat) : Nat := log2Fuel n n 0

/-- Whether `num / den ≥ 2^e`. -/
def geTwoPow (num den : Nat) (e : Int) : Bool :=
  if 0 ≤ e then decide (den * 2 ^ e.toNat ≤ num) else decide (den ≤ num * 2 ^ (-e).toNat)

/-- The last step of rounding: the rounded mantissa `m1` (at most `2^53`) with
the exponent `q` of its unit is renormalised when it reached `2^53`, and a value
beyond the largest finite one becomes an infinity, with the overflow flag. -/
def packFloat64 (neg : Bool) (m1 : Nat) (q : Int) : Float64 × Bool :=
  let m2 : Nat := if m1 = 2 ^ 53 then 2 ^ 52 else m1
  let q2 : Int := if m1 = 2 ^ 53 then q + 1 else q
  if 971 < q2 then (.inf neg, true) else (.finite neg m2 q2, false)

/-- The binary64 nearest to `(-1)^neg * num / den` (`den > 0`), ties to even, as
IEEE-754 rounding gives it; the flag tells that the value overflowed to an
infinity. -/
def roundToFloat64 (neg : Bool) (num den : Nat) : Float64 × Bool :=
  if num = 0 then (.finite neg 0 (-1074), false)
  else
    let e0 : Int := (floorLog2 num : Int) - (floorLog2 den : Int)
    let e : Int := if geTwoPow num den e0 then e0 else e0 - 1
    let q : Int := max (e - 52) (-1074)
    let n1 : Nat := if 0 ≤ q then num else num * 2 ^ (-q).toNat
    let d1 : Nat := if 0 ≤ q then den * 2 ^ q.toNat else den
    let m : Nat := n1 / d1
    let r : Nat := n1 % d1
    let m1 : Nat := if d1 < 2 * r ∨ (2 * r = d1 ∧ m % 2 = 1) then m + 1 else m
    packFloat64 neg m1 q

/-- The two kinds of `*strconv.NumError` that `ParseFloat` returns. -/
inductive NumError where
  | ErrSyntax
  | ErrRange
  deriving DecidableEq, Repr

/-- Go's `lower(c)` of `strconv`: `c | ('x' ^ 'X')`, on the code point. -/
def lower (c : Char) : Nat := c.toNat ||| 0x20

/-- `'0' <= c && c <= '9'`. -/
def isDecDigit (c : Char) : Bool := decide (48 ≤ c.toNat) && decide (c.toNat ≤ 57)

/-- `'a' <= lower(c) && lower(c) <= 'f'`. -/
def isHexLetter (c : Char) : Bool := decide (97 ≤ lower c) && decide (lower c ≤ 102)

/-- `commonPrefixLenIgnoreCase(s, prefix)`; `prefix` is lower case. -/
def commonPrefixLenIgnoreCase : List Char → List Char → Nat
  | c :: s, p :: ps =>
    let c1 : Nat := if 65 ≤ c.toNat ∧ c.toNat ≤ 90 then c.toNat + 32 else c.toNat
    if c1 ≠ p.toNat then 0 else commonPrefixLenIgnoreCase s ps + 1
  | _, _ => 0

/-- The `'i', 'I'` case of `special`: an infinity and the number of characters
consumed. -/
def specialInf (neg : Bool) (nsign : Nat) (s : List Char) : Option (Float64 × Nat) :=
  let n := commonPrefixLenIgnoreCase s "infinity".data
  let n1 := if 3 < n ∧ n < 8 then 3 else n
  if n1 = 3 ∨ n1 = 8 then some (.inf neg, nsign + n1) else none

/-- `special(s)`: the strings `NaN`, `Inf`, `Infinity` (any case, the last two
possibly signed) at the start of `s`. -/
def special : List Char → Option (Float64 × Nat)
  | [] => none
  | c :: s =>
    if c = '+' then specialInf false 1 s
    else if c = '-' then specialInf true 1 s
    else if c = 'i' ∨ c = 'I' then specialInf false 0 (c :: s)
    else if c = 'n' ∨ c = 'N' then
      if commonPrefixLenIgnoreCase (c :: s) "nan".data = 3 then some (.nan, 3) else none
    else none

/-- The variables of the digit loop of `readFloat`. The mantissa is kept in
full (`readFloat` keeps 19 digits and a `trunc` flag, and the conversion then
returns the correctly rounded value of all the digits), so `nd` is also the
number of digits in `mantissa`. -/
structure Digits where
  sawdot : Bool
  sawdigits : Bool
  nd : Nat
  dp : Int
  mantissa : Nat
  underscores : Bool
  deriving DecidableEq, Repr

/-- The digit loop of `readFloat`: returns the loop variables and the text left
at the character that ended the loop. -/
def readDigits (hex : Bool) : List Char → Digits → Digits × List Char
  | [], d => (d, [])
  | c :: s, d =>
    if c = '_' then readDigits hex s { d with underscores := true }
    else if c = '.' then
      if d.sawdot then (d, c :: s)
      else readDigits hex s { d with sawdot := true, dp := d.nd }
    else if isDecDigit c then
      if c = '0' ∧ d.nd = 0 then
        readDigits hex s { d with sawdigits := true, dp := d.dp - 1 }
      else
        readDigits hex s { d with sawdigits := true, nd := d.nd + 1,
                                  mantissa := d.mantissa * (if hex then 16 else 10) + (c.toNat - 48) }
    else if hex ∧ isHexLetter c then
      readDigits hex s { d with sawdigits := true, nd := d.nd + 1,
                                mantissa := d.mantissa * 16 + (lower c - 97 + 10) }
    else (d, c :: s)

/-- The exponent digits of `readFloat`: `e` grows only while `e < 10000`. -/
def readExpDigits : List Char → Nat → Bool → Nat × Bool × List Char
  | [], e, u => (e, u, [])
  | c :: s, e, u =>
    if c = '_' then readExpDigits s e true
    else if isDecDigit c then
      readExpDigits s (if e < 10000 then e * 10 + (c.toNat - 48) else e) u
    else (e, u, c :: s)

/-- The loop of `underscoreOK` over the number proper; `saw` is the last
character class seen: 0 for `'^'`, 1 for `'0'`, 2 for `'_'`, 3 for `'!'`. -/
def underscoreLoop (hex : Bool) : List Char → Nat → Bool
  | [], saw => saw ≠ 2
  | c :: s, saw =>
    if isDecDigit c ∨ (hex ∧ isHexLetter c) then underscoreLoop hex s 1
    else if c = '_' then
      if saw ≠ 1 then false else underscoreLoop hex s 2
    else if saw = 2 then false
    else underscoreLoop hex s 3

/-- `underscoreOK(s)`: underscores only between digits or between a base prefix
and a digit. -/
def underscoreOK (s : List Char) : Bool :=
  let s1 := match s with
    | c :: t => if c = '-' ∨ c = '+' then t else s
    | [] => s
  match s1 with
  | c0 :: c1 :: t =>
    if c0 = '0' ∧ (lower c1 = 98 ∨ lower c1 = 111 ∨ lower c1 = 120) then
      underscoreLoop (lower c1 = 120) t 1
    else underscoreLoop false s1 0
  | _ => underscoreLoop false s1 0

/-- What `readFloat` returns when `ok`: the sign, the mantissa, the exponent
of the base (10, or 2 for a hexadecimal mantissa) and the text left. -/
structure ReadFloat where
  neg : Bool
  hex : Bool
  mantissa : Nat
  exp : Int
  rest : List Char
  deriving DecidableEq, Repr

/-- `readFloat(s)`; `none` is `ok = false`. -/
def readFloat (s : List Char) : Option ReadFloat :=
  match s with
  | [] => none
  | c :: t =>
    let neg : Bool := c = '-'
    let s1 : List Char := if c = '+' ∨ c = '-' then t else s
    let hex : Bool := match s1 with
      | c0 :: c1 :: _ :: _ => c0 = '0' ∧ lower c1 = 120
      | _ => false
    let s2 : List Char := if hex then s1.drop 2 else s1
    let (d, s3) := readDigits hex s2 ⟨false, false, 0, 0, 0, false⟩
    if ¬ d.sawdigits then none
    else
      let dp0 : Int := if d.sawdot then d.dp else d.nd
      let dp1 : Int := if hex then dp0 * 4 else dp0
      let nd1 : Int := if hex then (d.nd : Int) * 4 else d.nd
      let finish (dp : Int) (u : Bool) (rest : List Char) : Option ReadFloat :=
        let consumed := s.take (s.length - rest.length)
        if u ∧ ¬ underscoreOK consumed then none
        else some ⟨neg, hex, d.mantissa, if d.mantissa ≠ 0 then dp - nd1 else 0, rest⟩
      match s3 with
      | c3 :: s4 =>
        if lower c3 = (if hex then 112 else 101) then
          match s4 with
          | [] => none
          | c4 :: s5 =>
            let esign : Int := if c4 = '-' then -1 else 1
            let s6 : List Char := if c4 = '+' ∨ c4 = '-' then s5 else s4
            match s6 with
            | [] => none
            | c6 :: _ =>
              if ¬ isDecDigit c6 then none
              else
                let (e, u, rest) := readExpDigits s6 0 d.underscores
                finish (dp1 + (e : Int) * esign) u rest
        else if hex then none
        else finish dp1 d.underscores s3
      | [] => if hex then none else finish dp1 d.underscores s3

/-- The value of a `readFloat` result: `mantissa * 10^exp`, or
`mantissa * 2^exp` for a hexadecimal mantissa, rounded to the nearest binary64
(`atof64exact`, `eiselLemire64`, `decimal.floatBits` and `atofHex` all return
that value), with the overflow flag. -/
def convert (r : ReadFloat) : Float64 × Bool :=
  let b : Nat := if r.hex then 2 else 10
  if 0 ≤ r.exp then roundToFloat64 r.neg (r.mantissa * b ^ r.exp.toNat) 1
  else roundToFloat64 r.neg r.mantissa (b ^ (-r.exp).toNat)

/-- `atof64(s)`: the value, whether all of `s` was consumed, and the error. -/
def atof64 (s : List Char) : Float64 × Bool × Option NumError :=
  match special s with
  | some (val, n) => (val, decide (n = s.length), none)
  | none =>
    match readFloat s with
    | none => (Float64.zero, false, some .ErrSyntax)
    | some r =>
      let (f, ovf) := convert r
      (f, r.rest.isEmpty, if ovf then some .ErrRange else none)

/-- `strconv.ParseFloat(s, 64)`: the value and the error (`none` is `nil`). -/
def ParseFloat (s : String) : Float64 × Option NumError :=
  let r := atof64 s.data
  if ¬ r.2.1 = true ∧ r.2.2 ≠ some .ErrSyntax then (Float64.zero, some .ErrSyntax)
  else (r.1, r.2.2)


/-! ## The metric store -/

/-- The constant `namespace` of `main.go`. -/
def locustNamespace : String := "locust"

/-- `prometheus.BuildFQName(namespace, subsystem, name)`. -/
def BuildFQName (ns subsystem name : String) : String :=
  if name = "" then ""
  else if ns ≠ "" ∧ subsystem ≠ "" then ns ++ "_" ++ subsystem ++ "_" ++ name
  else if ns ≠ "" then ns ++ "_" ++ name
  else if subsystem ≠ "" then subsystem ++ "_" ++ name
  else name

/-- A `prometheus.Desc`: what `NewGauge`, `NewGaugeVec` and `NewCounter` build
from their options and label names. -/
structure Desc where
  fqName : String
  help : String
  variableLabels : List String
  deriving DecidableEq, Repr

/-- The thirteen `*prometheus.GaugeVec` fields of the `Exporter` structure. -/
inductive Family where
  | locustCurrentResponseTimePercentileNinetyFifth
  | locustCurrentResponseTimePercentileFiftieth
  | locustNumRequests
  | locustNumFailures
  | locustAvgResponseTime
  | locustCurrentFailPerSec
  | locustSlavesDetail
  | locustMinResponseTime
  | locustMaxResponseTime
  | locustCurrentRps
  | locustMedianResponseTime
  | locustAvgContentLength
  | locustErrors
  deriving DecidableEq, Repr

/-- The descriptor `NewExporter` gives each `GaugeVec` field; it never changes
afterwards. -/
def Family.desc : Family → Desc
  | .locustCurrentResponseTimePercentileNinetyFifth =>
    ⟨BuildFQName locustNamespace "requests" "current_response_time_percentile_95", "",
      ["method", "name"]⟩
  | .locustCurrentResponseTimePercentileFiftieth =>
    ⟨BuildFQName locustNamespace "requests" "current_response_time_percentile_50", "",
      ["method", "name"]⟩
  | .locustSlavesDetail =>
    ⟨BuildFQName locustNamespace "slave" "detail",
      "The current status of a slave with user count", ["id", "state"]⟩
  | .locustNumRequests =>
    ⟨BuildFQName locustNamespace "requests" "num_requests", "", ["method", "name"]⟩
  | .locustNumFailures =>
    ⟨BuildFQName locustNamespace "requests" "num_failures", "", ["method", "name"]⟩
  | .locustAvgResponseTime =>
    ⟨BuildFQName locustNamespace "requests" "avg_response_time", "", ["method", "name"]⟩
  | .locustCurrentFailPerSec =>
    ⟨BuildFQName locustNamespace "requests" "current_fail_per_sec", "", ["method", "name"]⟩
  | .locustMinResponseTime =>
    ⟨BuildFQName locustNamespace "requests" "min_response_time", "", ["method", "name"]⟩
  | .locustMaxResponseTime =>
    ⟨BuildFQName locustNamespace "requests" "max_response_time", "", ["method", "name"]⟩
  | .locustCurrentRps =>
    ⟨BuildFQName locustNamespace "requests" "current_rps", "", ["method", "name"]⟩
  | .locustMedianResponseTime =>
    ⟨BuildFQName locustNamespace "requests" "median_response_time", "", ["method", "name"]⟩
  | .locustAvgContentLength =>
    ⟨BuildFQName locustNamespace "requests" "avg_content_length", "", ["method", "name"]⟩
  | .locustErrors =>
    ⟨BuildFQName locustNamespace "" "errors", "The current number of errors.",
      ["method", "name", "error"]⟩

/-- The descriptor of the gauge `locustUp`. -/
def locustUpDesc : Desc :=
  ⟨BuildFQName locustNamespace "" "up",
    "The current health status of the server (1 = UP, 0 = DOWN).", []⟩

/-- The descriptor of the counter `totalScrapes`. -/
def totalScrapesDesc : Desc :=
  ⟨BuildFQName locustNamespace "" "total_scrapes", "The total number of scrapes.", []⟩

/-- The children of one `GaugeVec`: the gauge value under each tuple of label
values. -/
abbrev Metrics := List (List String × Float64)

/-- The value under the label values `lvs`, if the vector has that child. -/
def Metrics.find (lvs : List String) : Metrics → Option Float64
  | [] => none
  | (k, v) :: t => if k = lvs then some v else Metrics.find lvs t

/-- The map update of `getOrCreateMetricWithLabelValues`: a child that is not
there yet is created, a new gauge holding `0`. -/
def Metrics.getOrCreate (lvs : List String) : Metrics → Metrics
  | [] => [(lvs, Float64.zero)]
  | (k, v) :: t => if k = lvs then (k, v) :: t else (k, v) :: Metrics.getOrCreate lvs t

/-- The effect of `Gauge.Set(x)` on the child under `lvs`. -/
def Metrics.set (lvs : List String) (x : Float64) : Metrics → Metrics
  | [] => []
  | (k, v) :: t => if k = lvs then (k, x) :: t else (k, v) :: Metrics.set lvs x t

/-- The mutable state behind an `*Exporter`: the value of the gauge `locustUp`,
the children of the thirteen vectors (indexed by field name) and the `valInt`
of the counter `totalScrapes`. -/
structure Exporter where
  locustUp : Float64
  vec : Family → Metrics
  totalScrapes : Nat

/-- The state `NewExporter` returns: nothing set, no child, no scrape counted. -/
def NewExporter : Exporter := ⟨Float64.zero, fun _ => [], 0⟩

/-- The state with the children of the vector `f` replaced. -/
def Exporter.setVec (e : Exporter) (f : Family) (m : Metrics) : Exporter :=
  { e with vec := fun g => if g = f then m else e.vec g }

/-- How a piece of code ends: it returns `a` and leaves the store `e`, or the
process is terminated (a panic or `log.Fatal`) with the store as `e`. -/
inductive Run (α : Type) where
  | done (a : α) (e : Exporter)
  | fatal (e : Exporter)

/-- The store a run leaves behind, however it ended. -/
def Run.exporter {α : Type} : Run α → Exporter
  | .done _ e => e
  | .fatal e => e

/-- `GaugeVec.WithLabelValues(lvs...)` on the field `f`: panics when the number
of label values is not the number of label names, creates the child when it is
missing. (Its other panic, on a label value that is not valid UTF-8, cannot
occur on a Lean string.) -/
def WithLabelValues (f : Family) (lvs : List String) (e : Exporter) : Run Unit :=
  if lvs.length ≠ f.desc.variableLabels.length then .fatal e
  else .done () (e.setVec f ((e.vec f).getOrCreate lvs))

/-- `Counter.Inc()` on the `uint64` part of a counter. -/
def Counter.Inc (valInt : Nat) : Nat := (valInt + 1) % 2 ^ 64

/-! ## `csv.Reader` -/

/-- One record of a file as the CSV reader splits it, or a line it cannot split
(a quoting error). -/
inductive Line where
  | fields (r : List String)
  | malformed
  deriving DecidableEq, Repr

/-- What one `Read()` returns before `io.EOF`: a record with `err == nil`, or an
error. -/
inductive ReadResult where
  | record (r : List String)
  | error
  deriving DecidableEq, Repr

/-- The successive results of `Read()` on a reader whose `FieldsPerRecord` is
`n`: with `n = 0` (the value `csv.NewReader` sets) the first record fixes the
number of fields, and a later record with another number is `ErrFieldCount`. -/
def readAll : Nat → List Line → List ReadResult
  | _, [] => []
  | n, .malformed :: rest => .error :: readAll n rest
  | n, .fields r :: rest =>
    if 0 < n then (if r.length ≠ n then .error else .record r) :: readAll n rest
    else .record r :: readAll r.length rest

/-! ## `getFloat64Element` and `scrape` -/

/-- `getFloat64Element(record, i)`: `none` is the index-out-of-range panic of
`record[i]`; the error of `ParseFloat` is dropped. -/
def getFloat64Element (record : List String) (i : Nat) : Option Float64 :=
  match record[i]? with
  | none => none
  | some s => some (ParseFloat s).1

/-- The label values `record[j]` for `j` in `labels`; `none` when one of them
is out of range. -/
def labelValues (record : List String) : List Nat → Option (List String)
  | [] => some []
  | j :: js =>
    match record[j]?, labelValues record js with
    | some s, some ss => some (s :: ss)
    | _, _ => none

/-- One statement
`e.f.WithLabelValues(record[labels]...).Set(getFloat64Element(record, col))`:
the label values are indexed, `WithLabelValues` is called, then
`getFloat64Element`, then `Set`. -/
def setFromColumn (labels : List Nat) (record : List String) (f : Family) (col : Nat)
    (e : Exporter) : Run Unit :=
  match labelValues record labels with
  | none => .fatal e
  | some lvs =>
    match WithLabelValues f lvs e with
    | .fatal e1 => .fatal e1
    | .done _ e1 =>
      match getFloat64Element record col with
      | none => .fatal e1
      | some x => .done () (e1.setVec f ((e1.vec f).set lvs x))

/-- The eleven statements of lines 231-241, in order: the field set and the
column it is set from. -/
def statsColumns : List (Family × Nat) :=
  [(.locustNumRequests, 2), (.locustNumFailures, 3), (.locustMedianResponseTime, 4),
   (.locustAvgResponseTime, 5), (.locustMinResponseTime, 6), (.locustMaxResponseTime, 7),
   (.locustAvgContentLength, 8), (.locustCurrentRps, 9), (.locustCurrentFailPerSec, 10),
   (.locustCurrentResponseTimePercentileFiftieth, 11),
   (.locustCurrentResponseTimePercentileNinetyFifth, 16)]

/-- The statement of line 263. -/
def failuresColumns : List (Family × Nat) := [(.locustErrors, 3)]

/-- A sequence of such statements; the first that ends the process ends the
sequence. -/
def setColumns (labels : List Nat) (record : List String) :
    List (Family × Nat) → Exporter → Run Unit
  | [], e => .done () e
  | (f, col) :: rest, e =>
    match setFromColumn labels record f col e with
    | .fatal e1 => .fatal e1
    | .done _ e1 => setColumns labels record rest e1

/-- The body of the first loop for one record (lines 230-242). -/
def statsRecord (record : List String) (e : Exporter) : Run Unit :=
  match record[0]? with
  | none => .fatal e
  | some r0 =>
    if r0 ≠ "Type" ∧ r0 ≠ "None" then setColumns [0, 1] record statsColumns e
    else .done () e

/-- The body of the second loop for one record (lines 262-264). -/
def failuresRecord (record : List String) (e : Exporter) : Run Unit :=
  match record[0]? with
  | none => .fatal e
  | some r0 =>
    if r0 ≠ "Method" then setColumns [0, 1, 2] record failuresColumns e
    else .done () e

/-- A `for` loop over the results of `Read()`: the end of the list is `io.EOF`
(`break`), an error is `log.Fatal(err)`. -/
def readLoop (body : List String → Exporter → Run Unit) :
    List ReadResult → Exporter → Run Unit
  | [], e => .done () e
  | .error :: _, e => .fatal e
  | .record r :: rest, e =>
    match body r e with
    | .fatal e1 => .fatal e1
    | .done _ e1 => readLoop body rest e1

/-- `Exporter.scrape`. A file argument is the content of the file at the
configured path, `none` when `os.Open` fails. -/
def scrape (e : Exporter) (csvStatsFile csvFailureFile : Option (List Line)) : Run Float64 :=
  let e0 : Exporter := { e with totalScrapes := Counter.Inc e.totalScrapes }
  match csvStatsFile with
  | none => .done Float64.zero e0
  | some stats =>
    match readLoop statsRecord (readAll 0 stats) e0 with
    | .fatal e1 => .fatal e1
    | .done _ e1 =>
      match csvFailureFile with
      | none => .done Float64.zero e1
      | some failures =>
        match readLoop failuresRecord (readAll 0 failures) e1 with
        | .fatal e2 => .fatal e2
        | .done _ e2 => .done Float64.one e2

/-! ## `Describe` and `Collect` -/

/-- A metric sent on the channel of `Collect`. -/
structure Metric where
  desc : Desc
  labelValues : List String
  value : Float64
  deriving DecidableEq, Repr

/-- `GaugeVec.Collect` on the field `f`: one metric per child. -/
def collectVec (e : Exporter) (f : Family) : List Metric :=
  (e.vec f).map fun kv => ⟨f.desc, kv.1, kv.2⟩

/-- The fields `Describe` sends the descriptors of, after that of `locustUp`
(lines 172-185). -/
def describedFamilies : List Family :=
  [.locustCurrentResponseTimePercentileNinetyFifth, .locustCurrentResponseTimePercentileFiftieth,
   .locustNumRequests, .locustNumFailures, .locustAvgResponseTime, .locustCurrentFailPerSec,
   .locustMinResponseTime, .locustMaxResponseTime, .locustMedianResponseTime, .locustCurrentRps,
   .locustAvgContentLength, .locustErrors, .locustSlavesDetail]

/-- The fields `Collect` collects, after the metric of `locustUp` (lines
193-203). -/
def collectedFamilies : List Family :=
  [.locustNumRequests, .locustNumFailures, .locustAvgResponseTime, .locustCurrentFailPerSec,
   .locustMinResponseTime, .locustMaxResponseTime, .locustCurrentRps, .locustMedianResponseTime,
   .locustAvgContentLength, .locustErrors, .locustSlavesDetail]

/-- `Exporter.Describe`: the descriptors sent on the channel. -/
def Describe : List Desc := locustUpDesc :: describedFamilies.map Family.desc

/-- `Exporter.Collect`: the metrics sent on the channel. -/
def Collect (e : Exporter) (csvStatsFile csvFailureFile : Option (List Line)) :
    Run (List Metric) :=
  match scrape e csvStatsFile csvFailureFile with
  | .fatal e1 => .fatal e1
  | .done up e1 =>
    .done (⟨locustUpDesc, [], up⟩ :: (collectedFamilies.map (collectVec e1)).flatten) e1

/-! ## Notions used to state the properties -/

/-- The store after `WithLabelValues(lvs...)` on the field `f`, when it does not
panic. -/
def Exporter.create (e : Exporter) (f : Family) (lvs : List String) : Exporter :=
  e.setVec f ((e.vec f).getOrCreate lvs)

/-- The store after `WithLabelValues(lvs...).Set(x)` on the field `f`, when
nothing panics. -/
def Exporter.put (e : Exporter) (f : Family) (lvs : List String) (x : Float64) : Exporter :=
  (e.create f lvs).setVec f (((e.create f lvs).vec f).set lvs x)

/-- What a piece of code that only sets gauges of the fields `fams` under label
tuples satisfying `touched` may do to the store: the gauge `locustUp` and the
counter are as before, the other fields are as before, the other label tuples
keep their value, and no label tuple disappears. -/
def Frame (fams : List Family) (touched : List String → Prop) (e e1 : Exporter) : Prop :=
  e1.totalScrapes = e.totalScrapes ∧ e1.locustUp = e.locustUp ∧
  (∀ g, g ∉ fams → e1.vec g = e.vec g) ∧
  (∀ g k, ¬ touched k → (e1.vec g).find k = (e.vec g).find k) ∧
  (∀ g k, (e.vec g).find k ≠ none → (e1.vec g).find k ≠ none)

/-- The stats record is a header or placeholder row, the ones the first loop
skips. -/
def isStatsSentinel (record : List String) : Prop :=
  record[0]? = some "Type" ∨ record[0]? = some "None"

instance (record : List String) : Decidable (isStatsSentinel record) := by
  unfold isStatsSentinel; exact inferInstance

/-- The store after the eleven statements on a stats record, when nothing
panics: each field of `tbl` is set from its column. -/
def putColumns (lvs : List String) (record : List String) (tbl : List (Family × Nat))
    (e : Exporter) : Exporter :=
  tbl.foldl (fun acc fc => acc.put fc.1 lvs (ParseFloat (record.getD fc.2 "")).1) e

/-- What a run returned, `none` when the process was terminated. -/
def Run.result {α : Type} : Run α → Option α
  | .done a _ => some a
  | .fatal _ => none

/-- The stats row of the specification's example. -/
def exampleStatsRow : List String :=
  ["GET", "/login", "100", "2", "120", "130", "50", "900", "512", "10.5", "0.2", "110",
   "", "", "", "", "180"]

/-- The failures row of the specification's example. -/
def exampleFailuresRow : List String := ["POST", "/cart", "Connection refused", "7"]

/-- A stats row whose third cell is a well-formed number beyond the range of
float64. -/
def overflowStatsRow : List String :=
  ["GET", "/login", "1e999", "2", "120", "130", "50", "900", "512", "10.5", "0.2", "110",
   "", "", "", "", "180"]

/-- The example stats row with a cell that is no number in column 3. -/
def syntaxErrorStatsRow : List String :=
  ["GET", "/login", "100", "N/A", "120", "130", "50", "900", "512", "10.5", "0.2", "110",
   "", "", "", "", "180"]

/-- A stats row with three fields only. -/
def shortStatsRow : List String := ["GET", "/x", "5"]

/-- Two stores hold the same: the same gauge and counter values and, in every
family, the same value (or none) under every label tuple. The children of a
`GaugeVec` are a Go map, which has no order. -/
def Exporter.Agree (a b : Exporter) : Prop :=
  a.totalScrapes = b.totalScrapes ∧ a.locustUp = b.locustUp ∧
  ∀ g k, (a.vec g).find k = (b.vec g).find k

/-- Two runs end the same way with stores that hold the same. -/
def RunAgree : Run Unit → Run Unit → Prop
  | .done _ a, .done _ b => a.Agree b
  | .fatal a, .fatal b => a.Agree b
  | _, _ => False

/-- The store after the body of the first loop on a record of at least 17
fields: unchanged for a sentinel, else the eleven families set. -/
def applyStatsRow (e : Exporter) (r : List String) : Exporter :=
  if isStatsSentinel r then e
  else putColumns [r.getD 0 "", r.getD 1 ""] r statsColumns e

/-- The `FieldsPerRecord` of a reader that started with the value `n` and has
read `lines`: `0` until a first record has fixed it. -/
def fieldsPerRecordAfter : Nat → List Line → Nat
  | n, [] => n
  | n, .malformed :: rest => fieldsPerRecordAfter n rest
  | n, .fields r :: rest =>
    if 0 < n then fieldsPerRecordAfter n rest else fieldsPerRecordAfter r.length rest

/-! ## Facts about the store operations -/

theorem floorLog2_eq (n : Nat) : floorLog2 n = Nat.log2 n := by
  have h : ∀ fuel n acc, n ≤ fuel → log2Fuel fuel n acc = acc + Nat.log2 n := by
    intro fuel
    induction fuel with
    | zero =>
      intro n acc hn
      have h0 : n = 0 := by omega
      subst h0
      simp [log2Fuel, Nat.log2]
    | succ k ih =>
      intro n acc hn
      rw [log2Fuel, Nat.log2]
      by_cases h2 : n < 2
      · have h3 : ¬ n ≥ 2 := by omega
        simp [h2, h3]
      · have h3 : n ≥ 2 := by omega
        simp only [h2, if_false, h3, if_true]
        rw [ih _ _ (by omega)]
        omega
  have h1 := h n n 0 (le_refl n)
  simpa [floorLog2] using h1

theorem Metrics.find_getOrCreate (lvs k : List String) (m : Metrics) :
    (m.getOrCreate lvs).find k
      = if k = lvs then some ((m.find lvs).getD Float64.zero) else m.find k := by
  induction m with
  | nil =>
    by_cases h : k = lvs
    · simp [Metrics.getOrCreate, Metrics.find, h]
    · have h1 : ¬ lvs = k := fun c => h c.symm
      simp [Metrics.getOrCreate, Metrics.find, h, h1]
  | cons kv t ih =>
    obtain ⟨k1, v1⟩ := kv
    by_cases h1 : k1 = lvs
    · subst h1
      by_cases h2 : k = k1
      · subst h2; simp [Metrics.getOrCreate, Metrics.find]
      · have h3 : ¬ k1 = k := fun c => h2 c.symm
        simp [Metrics.getOrCreate, Metrics.find, h2, h3]
    · by_cases h2 : k = lvs
      · subst h2
        simp [Metrics.getOrCreate, Metrics.find, h1, ih]
      · by_cases h3 : k1 = k
        · simp [Metrics.getOrCreate, Metrics.find, h1, h2, h3]
        · simp [Metrics.getOrCreate, Metrics.find, h1, h2, h3, ih]

theorem Metrics.find_set (lvs k : List String) (x : Float64) (m : Metrics) :
    (m.set lvs x).find k
      = if k = lvs then (m.find lvs).map (fun _ => x) else m.find k := by
  induction m with
  | nil => simp [Metrics.set, Metrics.find]
  | cons kv t ih =>
    obtain ⟨k1, v1⟩ := kv
    by_cases h1 : k1 = lvs
    · subst h1
      by_cases h2 : k = k1
      · subst h2; simp [Metrics.set, Metrics.find]
      · have h3 : ¬ k1 = k := fun c => h2 c.symm
        simp [Metrics.set, Metrics.find, h2, h3]
    · by_cases h2 : k = lvs
      · subst h2
        simp [Metrics.set, Metrics.find, h1, ih]
      · by_cases h3 : k1 = k
        · simp [Metrics.set, Metrics.find, h1, h2, h3]
        · simp [Metrics.set, Metrics.find, h1, h2, h3, ih]

theorem Exporter.setVec_vec (e : Exporter) (f g : Family) (m : Metrics) :
    (e.setVec f m).vec g = if g = f then m else e.vec g := rfl

theorem Exporter.put_vec_ne (e : Exporter) (f g : Family) (lvs : List String) (x : Float64)
    (h : g ≠ f) : (e.put f lvs x).vec g = e.vec g := by
  simp [Exporter.put, Exporter.create, Exporter.setVec_vec, h]

theorem Exporter.put_find (e : Exporter) (f g : Family) (lvs k : List String) (x : Float64) :
    ((e.put f lvs x).vec g).find k
      = if g = f ∧ k = lvs then some x else (e.vec g).find k := by
  by_cases hg : g = f
  · subst hg
    by_cases hk : k = lvs
    · subst hk
      simp [Exporter.put, Exporter.create, Exporter.setVec_vec, Metrics.find_set,
        Metrics.find_getOrCreate]
    · simp [Exporter.put, Exporter.create, Exporter.setVec_vec, Metrics.find_set,
        Metrics.find_getOrCreate, hk]
  · simp [Exporter.put_vec_ne _ _ _ _ _ hg, hg]

theorem Exporter.put_totalScrapes (e : Exporter) (f : Family) (lvs : List String)
    (x : Float64) : (e.put f lvs x).totalScrapes = e.totalScrapes := rfl

theorem Exporter.put_locustUp (e : Exporter) (f : Family) (lvs : List String)
    (x : Float64) : (e.put f lvs x).locustUp = e.locustUp := rfl

theorem Exporter.create_find (e : Exporter) (f g : Family) (lvs k : List String) :
    ((e.create f lvs).vec g).find k
      = if g = f ∧ k = lvs then some (((e.vec f).find lvs).getD Float64.zero)
        else (e.vec g).find k := by
  by_cases hg : g = f
  · subst hg
    by_cases hk : k = lvs
    · subst hk
      simp [Exporter.create, Exporter.setVec_vec, Metrics.find_getOrCreate]
    · simp [Exporter.create, Exporter.setVec_vec, Metrics.find_getOrCreate, hk]
  · simp [Exporter.create, Exporter.setVec_vec, hg]

theorem Frame.refl (fams : List Family) (touched : List String → Prop) (e : Exporter) :
    Frame fams touched e e :=
  ⟨rfl, rfl, fun _ _ => rfl, fun _ _ _ => rfl, fun _ _ h => h⟩

theorem Frame.trans {fams : List Family} {touched : List String → Prop} {e e1 e2 : Exporter}
    (h1 : Frame fams touched e e1) (h2 : Frame fams touched e1 e2) : Frame fams touched e e2 := by
  obtain ⟨a1, b1, c1, d1, m1⟩ := h1
  obtain ⟨a2, b2, c2, d2, m2⟩ := h2
  refine ⟨a2.trans a1, b2.trans b1, ?_, ?_, ?_⟩
  · intro g hg; rw [c2 g hg, c1 g hg]
  · intro g k hk; rw [d2 g k hk, d1 g k hk]
  · intro g k hk; exact m2 g k (m1 g k hk)

theorem Frame.mono {fams fams1 : List Family} {touched touched1 : List String → Prop}
    {e e1 : Exporter} (h : Frame fams touched e e1) (hf : ∀ g, g ∈ fams → g ∈ fams1)
    (ht : ∀ k, touched k → touched1 k) : Frame fams1 touched1 e e1 := by
  obtain ⟨a1, b1, c1, d1, m1⟩ := h
  refine ⟨a1, b1, ?_, ?_, m1⟩
  · intro g hg; exact c1 g (fun c => hg (hf g c))
  · intro g k hk; exact d1 g k (fun c => hk (ht k c))

theorem Frame.create (e : Exporter) (f : Family) (lvs : List String) :
    Frame [f] (fun k => k = lvs) e (e.create f lvs) := by
  refine ⟨rfl, rfl, ?_, ?_, ?_⟩
  · intro g hg
    have hne : g ≠ f := by simpa using hg
    simp [Exporter.create, Exporter.setVec_vec, hne]
  · intro g k hk
    rw [Exporter.create_find]
    simp [hk]
  · intro g k hk
    rw [Exporter.create_find]
    by_cases hc : g = f ∧ k = lvs
    · simp [hc]
    · simpa [hc] using hk

theorem Frame.put (e : Exporter) (f : Family) (lvs : List String) (x : Float64) :
    Frame [f] (fun k => k = lvs) e (e.put f lvs x) := by
  refine ⟨rfl, rfl, ?_, ?_, ?_⟩
  · intro g hg
    have hne : g ≠ f := by simpa using hg
    exact Exporter.put_vec_ne e f g lvs x hne
  · intro g k hk
    rw [Exporter.put_find]
    simp [hk]
  · intro g k hk
    rw [Exporter.put_find]
    by_cases hc : g = f ∧ k = lvs
    · simp [hc]
    · simpa [hc] using hk

theorem setFromColumn_done (labels : List Nat) (record : List String) (f : Family) (col : Nat)
    (e : Exporter) (lvs : List String) (s : String)
    (hl : labelValues record labels = some lvs)
    (ha : lvs.length = f.desc.variableLabels.length) (hc : record[col]? = some s) :
    setFromColumn labels record f col e = .done () (e.put f lvs (ParseFloat s).1) := by
  simp [setFromColumn, hl, WithLabelValues, ha, getFloat64Element, hc, Exporter.put,
    Exporter.create]

theorem setFromColumn_frame (labels : List Nat) (record : List String) (f : Family) (col : Nat)
    (e : Exporter) :
    Frame [f] (fun k => labelValues record labels = some k) e
      (setFromColumn labels record f col e).exporter := by
  unfold setFromColumn
  cases hl : labelValues record labels with
  | none => exact Frame.refl _ _ _
  | some lvs =>
    by_cases ha : lvs.length = f.desc.variableLabels.length
    · cases hx : getFloat64Element record col with
      | none =>
        simp only [WithLabelValues, ha, ne_eq, not_true_eq_false, if_false, hx, Run.exporter]
        exact (Frame.create e f lvs).mono (fun _ h => h) (fun k hk => by simp [hk])
      | some x =>
        simp only [WithLabelValues, ha, ne_eq, not_true_eq_false, if_false, hx, Run.exporter]
        exact (Frame.put e f lvs x).mono (fun _ h => h) (fun k hk => by simp [hk])
    · simp only [WithLabelValues, ne_eq, ha, not_false_eq_true, if_true, Run.exporter]
      exact Frame.refl _ _ _

theorem setColumns_frame (labels : List Nat) (record : List String)
    (tbl : List (Family × Nat)) (e : Exporter) :
    Frame (tbl.map Prod.fst) (fun k => labelValues record labels = some k) e
      (setColumns labels record tbl e).exporter := by
  induction tbl generalizing e with
  | nil => exact Frame.refl _ _ _
  | cons fc rest ih =>
    obtain ⟨f, col⟩ := fc
    have h1 := setFromColumn_frame labels record f col e
    have h1m : Frame (((f, col) :: rest).map Prod.fst)
        (fun k => labelValues record labels = some k) e
        (setFromColumn labels record f col e).exporter :=
      h1.mono (fun g hg => by simp at hg; simp [hg]) (fun _ h => h)
    unfold setColumns
    cases hs : setFromColumn labels record f col e with
    | fatal e1 =>
      rw [hs] at h1m
      exact h1m
    | done u e1 =>
      rw [hs] at h1m
      have h2 : Frame (((f, col) :: rest).map Prod.fst)
          (fun k => labelValues record labels = some k) e1
          (setColumns labels record rest e1).exporter :=
        (ih e1).mono (fun g hg => by simp at hg ⊢; exact Or.inr hg) (fun _ h => h)
      exact h1m.trans h2

theorem setColumns_done (labels : List Nat) (record : List String) (lvs : List String)
    (hl : labelValues record labels = some lvs)
    (tbl : List (Family × Nat)) (e : Exporter)
    (ht : ∀ fc, fc ∈ tbl →
      lvs.length = fc.1.desc.variableLabels.length ∧ fc.2 < record.length) :
    setColumns labels record tbl e = .done () (putColumns lvs record tbl e) := by
  induction tbl generalizing e with
  | nil => rfl
  | cons fc rest ih =>
    obtain ⟨f, col⟩ := fc
    obtain ⟨ha, hc⟩ := ht (f, col) (by simp)
    have hget : record[col]? = some (record.getD col "") := by
      simp [List.getD, List.getElem?_eq_getElem hc]
    unfold setColumns
    rw [setFromColumn_done labels record f col e lvs _ hl ha hget]
    simp only []
    rw [ih _ (fun fc hfc => ht fc (by simp [hfc]))]
    rfl

theorem setColumns_done_imp (labels : List Nat) (record : List String)
    (tbl : List (Family × Nat)) (e e1 : Exporter)
    (h : setColumns labels record tbl e = .done () e1) :
    ∀ fc, fc ∈ tbl → fc.2 < record.length := by
  induction tbl generalizing e with
  | nil => intro fc hfc; simp at hfc
  | cons fc rest ih =>
    obtain ⟨f, col⟩ := fc
    unfold setColumns at h
    cases hs : setFromColumn labels record f col e with
    | fatal e2 => rw [hs] at h; simp at h
    | done u e2 =>
      rw [hs] at h
      simp only [] at h
      have hcol : col < record.length := by
        by_contra hlt
        have hnone : getFloat64Element record col = none := by
          simp [getFloat64Element, List.getElem?_eq_none (Nat.le_of_not_lt hlt)]
        unfold setFromColumn at hs
        cases hl : labelValues record labels with
        | none => rw [hl] at hs; simp at hs
        | some lvs =>
          rw [hl] at hs
          simp only [] at hs
          cases hw : WithLabelValues f lvs e with
          | fatal e3 => rw [hw] at hs; simp at hs
          | done u3 e3 => rw [hw] at hs; simp [hnone] at hs
      intro fc hfc
      rcases List.mem_cons.mp hfc with h1 | h1
      · subst h1; exact hcol
      · exact ih e2 h fc h1

theorem putColumns_vec_notin (lvs record : List String) (tbl : List (Family × Nat))
    (e : Exporter) (g : Family) (hg : g ∉ tbl.map Prod.fst) :
    (putColumns lvs record tbl e).vec g = e.vec g := by
  induction tbl generalizing e with
  | nil => rfl
  | cons fc rest ih =>
    obtain ⟨f, col⟩ := fc
    simp only [List.map_cons, List.mem_cons, not_or] at hg
    show (putColumns lvs record rest _).vec g = e.vec g
    rw [ih _ hg.2]
    exact Exporter.put_vec_ne e f g lvs _ hg.1

theorem putColumns_find (lvs record : List String) (tbl : List (Family × Nat))
    (e : Exporter) (hn : (tbl.map Prod.fst).Nodup) (f : Family) (col : Nat)
    (hm : (f, col) ∈ tbl) :
    ((putColumns lvs record tbl e).vec f).find lvs
      = some (ParseFloat (record.getD col "")).1 := by
  induction tbl generalizing e with
  | nil => simp at hm
  | cons fc rest ih =>
    obtain ⟨f1, col1⟩ := fc
    simp only [List.map_cons, List.nodup_cons] at hn
    show ((putColumns lvs record rest _).vec f).find lvs = _
    rcases List.mem_cons.mp hm with h1 | h1
    · cases h1
      rw [putColumns_vec_notin lvs record rest _ f hn.1, Exporter.put_find]
      simp
    · exact ih _ hn.2 h1

theorem statsColumns_nodup : (statsColumns.map Prod.fst).Nodup := by decide

theorem statsColumns_spec (fc : Family × Nat) (h : fc ∈ statsColumns) :
    fc.1.desc.variableLabels.length = 2 ∧ fc.2 < 17 := by
  revert fc
  decide

theorem labelValues_two (record : List String) (h : 2 ≤ record.length) :
    labelValues record [0, 1] = some [record.getD 0 "", record.getD 1 ""] := by
  match record, h with
  | a :: b :: t, _ => simp [labelValues]

theorem labelValues_three (record : List String) (h : 3 ≤ record.length) :
    labelValues record [0, 1, 2]
      = some [record.getD 0 "", record.getD 1 "", record.getD 2 ""] := by
  match record, h with
  | a :: b :: c :: t, _ => simp [labelValues]

theorem statsRecord_sentinel (record : List String) (e : Exporter)
    (h : isStatsSentinel record) : statsRecord record e = .done () e := by
  unfold statsRecord
  rcases h with h | h <;> simp [h]

theorem statsRecord_done (record : List String) (e : Exporter) (h17 : 17 ≤ record.length)
    (hs : ¬ isStatsSentinel record) :
    statsRecord record e
      = .done () (putColumns [record.getD 0 "", record.getD 1 ""] record statsColumns e) := by
  have h0 : record[0]? = some (record.getD 0 "") := by
    simp [List.getD, List.getElem?_eq_getElem (show 0 < record.length by omega)]
  have hT : record.getD 0 "" ≠ "Type" := by
    intro c; exact hs (Or.inl (by rw [h0, c]))
  have hN : record.getD 0 "" ≠ "None" := by
    intro c; exact hs (Or.inr (by rw [h0, c]))
  unfold statsRecord
  rw [h0]
  simp only [ne_eq, hT, not_false_eq_true, hN, and_self, if_true]
  exact setColumns_done [0, 1] record _ (labelValues_two record (by omega)) statsColumns e
    (fun fc hfc => by
      obtain ⟨h1, h2⟩ := statsColumns_spec fc hfc
      exact ⟨by simp [h1], by omega⟩)

theorem statsRecord_frame (record : List String) (e : Exporter) :
    Frame (statsColumns.map Prod.fst)
      (fun k => ¬ isStatsSentinel record ∧ labelValues record [0, 1] = some k) e
      (statsRecord record e).exporter := by
  unfold statsRecord
  cases h0 : record[0]? with
  | none => exact Frame.refl _ _ _
  | some r0 =>
    by_cases hc : r0 ≠ "Type" ∧ r0 ≠ "None"
    · have hs : ¬ isStatsSentinel record := by
        unfold isStatsSentinel
        rw [h0]
        simp [hc.1, hc.2]
      simp only [hc, ne_eq, not_false_eq_true, and_self, if_true]
      exact (setColumns_frame [0, 1] record statsColumns e).mono (fun _ h => h)
        (fun k hk => ⟨hs, hk⟩)
    · simp only [hc, if_false]
      exact Frame.refl _ _ _

theorem statsRecord_done_length (record : List String) (e e1 : Exporter)
    (hs : ¬ isStatsSentinel record) (h : statsRecord record e = .done () e1) :
    17 ≤ record.length := by
  unfold statsRecord at h
  cases h0 : record[0]? with
  | none => rw [h0] at h; simp at h
  | some r0 =>
    rw [h0] at h
    have hc : r0 ≠ "Type" ∧ r0 ≠ "None" := by
      constructor
      · intro c; exact hs (Or.inl (by rw [h0, c]))
      · intro c; exact hs (Or.inr (by rw [h0, c]))
    simp only [hc, ne_eq, not_false_eq_true, and_self, if_true] at h
    have := setColumns_done_imp [0, 1] record statsColumns e e1 h
      (.locustCurrentResponseTimePercentileNinetyFifth, 16) (by decide)
    exact this

theorem putColumns_congr (lvs record record2 : List String) (tbl : List (Family × Nat))
    (e : Exporter) (h : ∀ fc, fc ∈ tbl → record2.getD fc.2 "" = record.getD fc.2 "") :
    putColumns lvs record2 tbl e = putColumns lvs record tbl e := by
  induction tbl generalizing e with
  | nil => rfl
  | cons fc rest ih =>
    show putColumns lvs record2 rest (e.put fc.1 lvs (ParseFloat (record2.getD fc.2 "")).1)
      = putColumns lvs record rest (e.put fc.1 lvs (ParseFloat (record.getD fc.2 "")).1)
    rw [h fc (by simp), ih _ (fun fc1 h1 => h fc1 (by simp [h1]))]

theorem failuresRecord_done (record : List String) (e : Exporter) (h4 : 4 ≤ record.length)
    (hM : record[0]? ≠ some "Method") :
    failuresRecord record e
      = .done () (e.put .locustErrors
          [record.getD 0 "", record.getD 1 "", record.getD 2 ""]
          (ParseFloat (record.getD 3 "")).1) := by
  have h0 : record[0]? = some (record.getD 0 "") := by
    simp [List.getD, List.getElem?_eq_getElem (show 0 < record.length by omega)]
  have hne : record.getD 0 "" ≠ "Method" := by
    intro c; exact hM (by rw [h0, c])
  unfold failuresRecord
  rw [h0]
  simp only [ne_eq, hne, not_false_eq_true, if_true]
  exact setColumns_done [0, 1, 2] record _ (labelValues_three record (by omega))
    failuresColumns e (fun fc hfc => by
      simp only [failuresColumns, List.mem_singleton] at hfc
      subst hfc
      exact ⟨rfl, by omega⟩)

theorem failuresRecord_frame (record : List String) (e : Exporter) :
    Frame [.locustErrors]
      (fun k => record[0]? ≠ some "Method" ∧ labelValues record [0, 1, 2] = some k) e
      (failuresRecord record e).exporter := by
  unfold failuresRecord
  cases h0 : record[0]? with
  | none => exact Frame.refl _ _ _
  | some r0 =>
    by_cases hc : r0 ≠ "Method"
    · simp only [hc, ne_eq, not_false_eq_true, if_true]
      exact (setColumns_frame [0, 1, 2] record failuresColumns e).mono (fun _ h => h)
        (fun k hk => ⟨by simpa using hc, hk⟩)
    · simp only [hc, if_false]
      exact Frame.refl _ _ _

theorem readLoop_append (body : List String → Exporter → Run Unit)
    (a b : List ReadResult) (e : Exporter) :
    readLoop body (a ++ b) e
      = match readLoop body a e with
        | .done _ e1 => readLoop body b e1
        | .fatal e1 => .fatal e1 := by
  induction a generalizing e with
  | nil => rfl
  | cons x rest ih =>
    cases x with
    | error => rfl
    | record r =>
      simp only [List.cons_append, readLoop]
      cases hb : body r e with
      | fatal e1 => rfl
      | done u e1 => exact ih e1

theorem readLoop_frame (body : List String → Exporter → Run Unit) (fams : List Family)
    (touchedBy : List String → List String → Prop)
    (hbody : ∀ r e, Frame fams (touchedBy r) e (body r e).exporter)
    (results : List ReadResult) (e : Exporter) :
    Frame fams (fun k => ∃ r, ReadResult.record r ∈ results ∧ touchedBy r k) e
      (readLoop body results e).exporter := by
  induction results generalizing e with
  | nil => exact Frame.refl _ _ _
  | cons x rest ih =>
    cases x with
    | error => exact Frame.refl _ _ _
    | record r =>
      have h1 : Frame fams
          (fun k => ∃ r1, ReadResult.record r1 ∈ ReadResult.record r :: rest ∧ touchedBy r1 k)
          e (body r e).exporter :=
        (hbody r e).mono (fun _ h => h) (fun k hk => ⟨r, by simp, hk⟩)
      unfold readLoop
      cases hb : body r e with
      | fatal e1 =>
        rw [hb] at h1
        exact h1
      | done u e1 =>
        rw [hb] at h1
        have h2 : Frame fams
            (fun k => ∃ r1, ReadResult.record r1 ∈ ReadResult.record r :: rest ∧ touchedBy r1 k)
            e1 (readLoop body rest e1).exporter :=
          (ih e1).mono (fun _ h => h) (fun k hk => by
            obtain ⟨r1, hm, ht⟩ := hk
            exact ⟨r1, by simp [hm], ht⟩)
        exact h1.trans h2

theorem readAll_record_mem (n : Nat) (lines : List Line) (r : List String)
    (h : ReadResult.record r ∈ readAll n lines) : Line.fields r ∈ lines := by
  induction lines generalizing n with
  | nil => simp [readAll] at h
  | cons x rest ih =>
    cases x with
    | malformed =>
      simp only [readAll, List.mem_cons] at h
      rcases h with h | h
      · cases h
      · exact List.mem_cons_of_mem _ (ih n h)
    | fields r1 =>
      simp only [readAll] at h
      by_cases hn : 0 < n
      · simp only [hn, if_true, List.mem_cons] at h
        rcases h with h | h
        · by_cases hl : r1.length ≠ n
          · simp [hl] at h
          · simp only [hl, if_false] at h
            cases h
            exact List.mem_cons_self _ _
        · exact List.mem_cons_of_mem _ (ih n h)
      · simp only [hn, if_false, List.mem_cons] at h
        rcases h with h | h
        · cases h
          exact List.mem_cons_self _ _
        · exact List.mem_cons_of_mem _ (ih _ h)

theorem readAll_uniform (n : Nat) (hn : 0 < n) (rows : List (List String))
    (h : ∀ x, x ∈ rows → x.length = n) (m : Nat) (hm : m = 0 ∨ m = n) :
    readAll m (rows.map Line.fields) = rows.map ReadResult.record := by
  induction rows generalizing m with
  | nil => rfl
  | cons x rest ih =>
    have hx : x.length = n := h x (by simp)
    have hrest : ∀ y, y ∈ rest → y.length = n := fun y hy => h y (by simp [hy])
    simp only [List.map_cons, readAll]
    rcases hm with hm | hm
    · subst hm
      simp only [Nat.lt_irrefl, if_false]
      rw [ih hrest x.length (Or.inr hx)]
    · subst hm
      simp only [hn, if_true, hx, ne_eq, not_true_eq_false, if_false]
      rw [ih hrest m (Or.inr rfl)]

theorem packFloat64_overflow (neg : Bool) (m1 : Nat) (q : Int)
    (h : (packFloat64 neg m1 q).2 = true) : (packFloat64 neg m1 q).1 = .inf neg := by
  unfold packFloat64 at h ⊢
  by_cases hq : 971 < (if m1 = 2 ^ 53 then q + 1 else q)
  · simp only [hq, if_true]
  · simp only [hq, if_false] at h
    cases h

theorem roundToFloat64_overflow (neg : Bool) (num den : Nat)
    (h : (roundToFloat64 neg num den).2 = true) :
    (roundToFloat64 neg num den).1 = .inf neg := by
  unfold roundToFloat64 at h ⊢
  by_cases h0 : num = 0
  · simp [h0] at h
  · simp only [h0, if_false] at h ⊢
    exact packFloat64_overflow _ _ _ h

theorem atof64_syntax (s : List Char) (h : (atof64 s).2.2 = some .ErrSyntax) :
    (atof64 s).1 = Float64.zero := by
  unfold atof64 at h ⊢
  cases hsp : special s with
  | some vn => rw [hsp] at h; simp at h
  | none =>
    rw [hsp] at h
    simp only [] at h ⊢
    cases hr : readFloat s with
    | none => rfl
    | some r =>
      rw [hr] at h
      simp only [] at h
      by_cases ho : (convert r).2 = true
      · simp [ho] at h
      · simp [ho] at h

theorem atof64_range (s : List Char) (h : (atof64 s).2.2 = some .ErrRange) :
    ∃ neg, (atof64 s).1 = .inf neg := by
  unfold atof64 at h ⊢
  cases hsp : special s with
  | some vn => rw [hsp] at h; simp at h
  | none =>
    rw [hsp] at h
    simp only [] at h ⊢
    cases hr : readFloat s with
    | none => rw [hr] at h; simp at h
    | some r =>
      rw [hr] at h
      simp only [] at h ⊢
      by_cases ho : (convert r).2 = true
      · refine ⟨r.neg, ?_⟩
        unfold convert at ho ⊢
        by_cases he : 0 ≤ r.exp
        · simp only [he, if_true] at ho ⊢
          exact roundToFloat64_overflow _ _ _ ho
        · simp only [he, if_false] at ho ⊢
          exact roundToFloat64_overflow _ _ _ ho
      · simp [ho] at h

theorem ParseFloat_eq (s : String) :
    ParseFloat s
      = if ¬ (atof64 s.data).2.1 = true ∧ (atof64 s.data).2.2 ≠ some .ErrSyntax
        then (Float64.zero, some .ErrSyntax)
        else ((atof64 s.data).1, (atof64 s.data).2.2) := rfl

theorem ParseFloat_syntax (s : String) (h : (ParseFloat s).2 = some .ErrSyntax) :
    (ParseFloat s).1 = Float64.zero := by
  rw [ParseFloat_eq] at h ⊢
  by_cases hc : ¬ (atof64 s.data).2.1 = true ∧ (atof64 s.data).2.2 ≠ some .ErrSyntax
  · rw [if_pos hc]
  · rw [if_neg hc] at h ⊢
    exact atof64_syntax _ h

theorem ParseFloat_range (s : String) (h : (ParseFloat s).2 = some .ErrRange) :
    ∃ neg, (ParseFloat s).1 = .inf neg := by
  rw [ParseFloat_eq] at h ⊢
  by_cases hc : ¬ (atof64 s.data).2.1 = true ∧ (atof64 s.data).2.2 ≠ some .ErrSyntax
  · rw [if_pos hc] at h
    cases h
  · rw [if_neg hc] at h ⊢
    exact atof64_range _ h

theorem ParseFloat_examples :
    ParseFloat "1.7976931348623157e308" = (.finite false (2 ^ 53 - 1) 971, none) ∧
    ParseFloat "1.797693134862315808e308" = (.inf false, some .ErrRange) ∧
    ParseFloat "-1e310" = (.inf true, some .ErrRange) ∧
    ParseFloat "4.9e-324" = (.finite false 1 (-1074), none) ∧
    ParseFloat "2e-324" = (Float64.zero, none) ∧
    ParseFloat "1e23" = (.finite false 0x152D02C7E14AF6 24, none) ∧
    ParseFloat "0x1p-2" = (.finite false (2 ^ 52) (-54), none) ∧
    ParseFloat "1_000" = (.finite false (1000 * 2 ^ 43) (-43), none) ∧
    ParseFloat "-Infinity" = (.inf true, none) ∧
    ParseFloat "NaN" = (.nan, none) ∧
    ParseFloat "" = (Float64.zero, some .ErrSyntax) ∧
    ParseFloat " 1" = (Float64.zero, some .ErrSyntax) ∧
    ParseFloat "1e" = (Float64.zero, some .ErrSyntax) ∧
    ParseFloat "0x1" = (Float64.zero, some .ErrSyntax) ∧
    ParseFloat "infi" = (Float64.zero, some .ErrSyntax) ∧
    ParseFloat "1" = (Float64.one, none) := by
  decide!

theorem readLoop_stats_total (rows : List (List String)) (e : Exporter)
    (h : ∀ x, x ∈ rows → 17 ≤ x.length) :
    ∃ e1, readLoop statsRecord (rows.map ReadResult.record) e = .done () e1 := by
  induction rows generalizing e with
  | nil => exact ⟨e, rfl⟩
  | cons x rest ih =>
    have hrest : ∀ y, y ∈ rest → 17 ≤ y.length := fun y hy => h y (by simp [hy])
    simp only [List.map_cons, readLoop]
    by_cases hs : isStatsSentinel x
    · rw [statsRecord_sentinel x e hs]
      exact ih e hrest
    · rw [statsRecord_done x e (h x (by simp)) hs]
      exact ih _ hrest

theorem readLoop_stats_last (pre post : List ReadResult) (r : List String) (e e1 : Exporter)
    (h : readLoop statsRecord (pre ++ ReadResult.record r :: post) e = .done () e1)
    (hs : ¬ isStatsSentinel r)
    (hpost : ∀ x, ReadResult.record x ∈ post → ¬ isStatsSentinel x →
      labelValues x [0, 1] ≠ labelValues r [0, 1])
    (f : Family) (col : Nat) (hm : (f, col) ∈ statsColumns) :
    (e1.vec f).find [r.getD 0 "", r.getD 1 ""] = some (ParseFloat (r.getD col "")).1 := by
  rw [readLoop_append] at h
  cases ha : readLoop statsRecord pre e with
  | fatal ea => rw [ha] at h; simp at h
  | done u ea =>
    rw [ha] at h
    simp only [readLoop] at h
    cases hb : statsRecord r ea with
    | fatal eb => rw [hb] at h; simp at h
    | done u1 eb =>
      rw [hb] at h
      simp only [] at h
      have h17 : 17 ≤ r.length := statsRecord_done_length r ea eb hs hb
      have heb := statsRecord_done r ea h17 hs
      rw [hb] at heb
      have heq : eb = putColumns [r.getD 0 "", r.getD 1 ""] r statsColumns ea := by
        injection heb
      have hfr := readLoop_frame statsRecord (statsColumns.map Prod.fst)
        (fun x k => ¬ isStatsSentinel x ∧ labelValues x [0, 1] = some k)
        statsRecord_frame post eb
      rw [h] at hfr
      obtain ⟨_, _, _, hkeep, _⟩ := hfr
      have hk := hkeep f [r.getD 0 "", r.getD 1 ""] (by
        rintro ⟨x, hx, hxs, hxl⟩
        apply hpost x hx hxs
        rw [hxl, labelValues_two r (by omega)])
      simp only [Run.exporter] at hk
      rw [hk, heq]
      exact putColumns_find _ r statsColumns ea statsColumns_nodup f col hm

theorem scrape_stats_missing (e : Exporter) (csvFailureFile : Option (List Line)) :
    scrape e none csvFailureFile
      = .done Float64.zero { e with totalScrapes := Counter.Inc e.totalScrapes } := rfl

theorem scrape_failures_missing (e e1 : Exporter) (stats : List Line)
    (h : readLoop statsRecord (readAll 0 stats)
      { e with totalScrapes := Counter.Inc e.totalScrapes } = .done () e1) :
    scrape e (some stats) none = .done Float64.zero e1 := by
  simp only [scrape, h]

theorem setColumns_fatal (labels : List Nat) (record : List String) (lvs : List String)
    (hl : labelValues record labels = some lvs)
    (done later : List (Family × Nat)) (f : Family) (col : Nat) (e : Exporter)
    (hd : ∀ fc, fc ∈ done →
      lvs.length = fc.1.desc.variableLabels.length ∧ fc.2 < record.length)
    (ha : lvs.length = f.desc.variableLabels.length) (hc : record.length ≤ col) :
    setColumns labels record (done ++ (f, col) :: later) e
      = .fatal ((putColumns lvs record done e).create f lvs) := by
  induction done generalizing e with
  | nil =>
    simp [setColumns, setFromColumn, hl, WithLabelValues, ha, getFloat64Element,
      List.getElem?_eq_none hc, putColumns, Exporter.create]
  | cons fc rest ih =>
    obtain ⟨f1, col1⟩ := fc
    obtain ⟨ha1, hc1⟩ := hd (f1, col1) (by simp)
    have hget : record[col1]? = some (record.getD col1 "") := by
      simp [List.getD, List.getElem?_eq_getElem hc1]
    simp only [List.cons_append, setColumns]
    rw [setFromColumn_done labels record f1 col1 e lvs _ hl ha1 hget]
    exact ih _ (fun fc hfc => hd fc (by simp [hfc]))

theorem statsColumns_split (n : Nat) (hn : n ≤ 16) :
    ∃ done f col later, statsColumns = done ++ (f, col) :: later ∧
      (∀ fc, fc ∈ done → fc.2 < n) ∧ n ≤ col := by
  have hsplit := List.takeWhile_append_dropWhile (fun fc : Family × Nat => decide (fc.2 < n))
    statsColumns
  cases hdw : statsColumns.dropWhile (fun fc : Family × Nat => decide (fc.2 < n)) with
  | nil =>
    have hall : ∀ fc, fc ∈ statsColumns → decide (fc.2 < n) = true := by
      simpa [List.dropWhile_eq_nil_iff] using hdw
    have := hall (.locustCurrentResponseTimePercentileNinetyFifth, 16) (by decide)
    simp at this
    omega
  | cons fc later =>
    obtain ⟨f, col⟩ := fc
    rw [hdw] at hsplit
    refine ⟨_, f, col, later, hsplit.symm, ?_, ?_⟩
    · intro fc hfc
      have := List.mem_takeWhile_imp hfc
      simpa using this
    · have hhead := List.head_dropWhile_not (fun fc : Family × Nat => decide (fc.2 < n))
        statsColumns (by rw [hdw]; simp)
      simp only [hdw, List.head_cons] at hhead
      simpa using hhead


theorem readAll_of_done (body : List String → Exporter → Run Unit) (lines : List Line)
    (n : Nat) (e e1 : Exporter) (h : readLoop body (readAll n lines) e = .done () e1) :
    ∃ rows : List (List String),
      lines = rows.map Line.fields ∧ readAll n lines = rows.map ReadResult.record := by
  induction lines generalizing n e with
  | nil => exact ⟨[], rfl, rfl⟩
  | cons x rest ih =>
    cases x with
    | malformed => simp [readAll, readLoop] at h
    | fields r =>
      by_cases hn : 0 < n
      · by_cases hl : r.length ≠ n
        · simp [readAll, hn, hl, readLoop] at h
        · simp only [readAll, hn, if_true, hl, if_false, readLoop] at h ⊢
          cases hb : body r e with
          | fatal e2 => rw [hb] at h; simp at h
          | done u e2 =>
            rw [hb] at h
            obtain ⟨rows, h1, h2⟩ := ih n e2 h
            exact ⟨r :: rows, by simp [h1], by simp [h2]⟩
      · simp only [readAll, hn, if_false, readLoop] at h ⊢
        cases hb : body r e with
        | fatal e2 => rw [hb] at h; simp at h
        | done u e2 =>
          rw [hb] at h
          obtain ⟨rows, h1, h2⟩ := ih r.length e2 h
          exact ⟨r :: rows, by simp [h1], by simp [h2]⟩

theorem map_fields_split (rows : List (List String)) (pre post : List Line) (r : List String)
    (h : rows.map Line.fields = pre ++ Line.fields r :: post) :
    ∃ pre1 post1, rows = pre1 ++ r :: post1 ∧ pre = pre1.map Line.fields ∧
      post = post1.map Line.fields := by
  induction rows generalizing pre with
  | nil =>
    have := congrArg List.length h
    simp at this
    omega
  | cons x rest ih =>
    cases pre with
    | nil =>
      simp only [List.map_cons, List.nil_append, List.cons.injEq, Line.fields.injEq] at h
      exact ⟨[], rest, by simp [h.1], rfl, h.2.symm⟩
    | cons y pre2 =>
      simp only [List.map_cons, List.cons_append, List.cons.injEq] at h
      obtain ⟨pre1, post1, h1, h2, h3⟩ := ih pre2 h.2
      exact ⟨x :: pre1, post1, by simp [h1], by simp [h2, h.1], h3⟩

theorem stats_file_last (stats : List Line) (e e1 : Exporter)
    (h : readLoop statsRecord (readAll 0 stats) e = .done () e1)
    (pre post : List Line) (r : List String) (hsplit : stats = pre ++ Line.fields r :: post)
    (hs : ¬ isStatsSentinel r)
    (hpost : ∀ x, Line.fields x ∈ post → ¬ isStatsSentinel x →
      labelValues x [0, 1] ≠ labelValues r [0, 1])
    (f : Family) (col : Nat) (hm : (f, col) ∈ statsColumns) :
    (e1.vec f).find [r.getD 0 "", r.getD 1 ""] = some (ParseFloat (r.getD col "")).1 := by
  obtain ⟨rows, h1, h2⟩ := readAll_of_done statsRecord stats 0 e e1 h
  obtain ⟨pre1, post1, h3, _, h5⟩ := map_fields_split rows pre post r (by rw [← h1, hsplit])
  rw [h2, h3, List.map_append, List.map_cons] at h
  refine readLoop_stats_last _ _ r e e1 h hs ?_ f col hm
  intro x hx
  apply hpost x
  rw [h5]
  simp only [List.mem_map, ReadResult.record.injEq] at hx
  obtain ⟨y, hy, hxy⟩ := hx
  subst hxy
  exact List.mem_map_of_mem _ hy

theorem scrape_frame (e : Exporter) (csvStatsFile csvFailureFile : Option (List Line)) :
    ∃ e1 : Exporter,
      Frame (statsColumns.map Prod.fst)
        (fun k => ∃ stats r, csvStatsFile = some stats ∧ Line.fields r ∈ stats ∧
          ¬ isStatsSentinel r ∧ labelValues r [0, 1] = some k)
        { e with totalScrapes := Counter.Inc e.totalScrapes } e1 ∧
      Frame [.locustErrors]
        (fun k => ∃ failures r, csvFailureFile = some failures ∧ Line.fields r ∈ failures ∧
          r[0]? ≠ some "Method" ∧ labelValues r [0, 1, 2] = some k)
        e1 (scrape e csvStatsFile csvFailureFile).exporter := by
  cases csvStatsFile with
  | none => exact ⟨_, Frame.refl _ _ _, Frame.refl _ _ _⟩
  | some stats =>
    have hf1 : Frame (statsColumns.map Prod.fst)
        (fun k => ∃ stats1 r, some stats = some stats1 ∧ Line.fields r ∈ stats1 ∧
          ¬ isStatsSentinel r ∧ labelValues r [0, 1] = some k)
        { e with totalScrapes := Counter.Inc e.totalScrapes }
        (readLoop statsRecord (readAll 0 stats)
          { e with totalScrapes := Counter.Inc e.totalScrapes }).exporter :=
      (readLoop_frame statsRecord (statsColumns.map Prod.fst)
      (fun x k => ¬ isStatsSentinel x ∧ labelValues x [0, 1] = some k)
      statsRecord_frame (readAll 0 stats)
      { e with totalScrapes := Counter.Inc e.totalScrapes }).mono
      (fun _ h => h)
      (fun k hk => by
        obtain ⟨r, hr, hs, hl⟩ := hk
        exact ⟨stats, r, rfl, readAll_record_mem 0 stats r hr, hs, hl⟩)
    simp only [scrape]
    cases hl1 : readLoop statsRecord (readAll 0 stats)
        { e with totalScrapes := Counter.Inc e.totalScrapes } with
    | fatal e1 =>
      rw [hl1] at hf1
      exact ⟨e1, hf1, Frame.refl _ _ _⟩
    | done u e1 =>
      rw [hl1] at hf1
      refine ⟨e1, hf1, ?_⟩
      cases csvFailureFile with
      | none => exact Frame.refl _ _ _
      | some failures =>
        have hf2 : Frame [.locustErrors]
            (fun k => ∃ failures1 r, some failures = some failures1 ∧
              Line.fields r ∈ failures1 ∧ r[0]? ≠ some "Method" ∧
              labelValues r [0, 1, 2] = some k)
            e1 (readLoop failuresRecord (readAll 0 failures) e1).exporter :=
          (readLoop_frame failuresRecord [.locustErrors]
          (fun x k => x[0]? ≠ some "Method" ∧ labelValues x [0, 1, 2] = some k)
          failuresRecord_frame (readAll 0 failures) e1).mono
          (fun _ h => h)
          (fun k hk => by
            obtain ⟨r, hr, hs, hl⟩ := hk
            exact ⟨failures, r, rfl, readAll_record_mem 0 failures r hr, hs, hl⟩)
        simp only []
        cases hl2 : readLoop failuresRecord (readAll 0 failures) e1 with
        | fatal e2 => rw [hl2] at hf2; exact hf2
        | done u2 e2 => rw [hl2] at hf2; exact hf2


theorem putColumns_frame (lvs record : List String) (tbl : List (Family × Nat))
    (e : Exporter) :
    Frame (tbl.map Prod.fst) (fun k => k = lvs) e (putColumns lvs record tbl e) := by
  induction tbl generalizing e with
  | nil => exact Frame.refl _ _ _
  | cons fc rest ih =>
    obtain ⟨f, col⟩ := fc
    have h1 : Frame (((f, col) :: rest).map Prod.fst) (fun k => k = lvs) e
        (e.put f lvs (ParseFloat (record.getD col "")).1) :=
      (Frame.put e f lvs _).mono (fun g hg => by simp at hg; simp [hg]) (fun _ h => h)
    have h2 : Frame (((f, col) :: rest).map Prod.fst) (fun k => k = lvs)
        (e.put f lvs (ParseFloat (record.getD col "")).1)
        (putColumns lvs record rest (e.put f lvs (ParseFloat (record.getD col "")).1)) :=
      (ih _).mono (fun g hg => by simp at hg ⊢; exact Or.inr hg) (fun _ h => h)
    exact h1.trans h2

theorem Exporter.Agree.rfl (a : Exporter) : a.Agree a := ⟨Eq.refl _, Eq.refl _, fun _ _ => Eq.refl _⟩

theorem applyStatsRow_agree (y : List String) (a b : Exporter) (g : Family) (k : List String)
    (h : (a.vec g).find k = (b.vec g).find k ∨
      (¬ isStatsSentinel y ∧ k = [y.getD 0 "", y.getD 1 ""] ∧
        g ∈ statsColumns.map Prod.fst)) :
    ((applyStatsRow a y).vec g).find k = ((applyStatsRow b y).vec g).find k := by
  unfold applyStatsRow
  by_cases hs : isStatsSentinel y
  · simp only [hs, if_true]
    rcases h with h | h
    · exact h
    · exact absurd hs h.1
  · simp only [hs, if_false]
    by_cases hk : k = [y.getD 0 "", y.getD 1 ""] ∧ g ∈ statsColumns.map Prod.fst
    · obtain ⟨hk1, hk2⟩ := hk
      obtain ⟨fc, hfc, hg⟩ := List.mem_map.mp hk2
      obtain ⟨f, col⟩ := fc
      simp only at hg
      subst hg
      subst hk1
      rw [putColumns_find _ y statsColumns a statsColumns_nodup f col hfc,
        putColumns_find _ y statsColumns b statsColumns_nodup f col hfc]
    · have hab : (a.vec g).find k = (b.vec g).find k := by
        rcases h with h | h
        · exact h
        · exact absurd ⟨h.2.1, h.2.2⟩ hk
      have keep : ∀ c : Exporter,
          ((putColumns [y.getD 0 "", y.getD 1 ""] y statsColumns c).vec g).find k
            = (c.vec g).find k := by
        intro c
        obtain ⟨_, _, hfam, hkeep, _⟩ :=
          putColumns_frame [y.getD 0 "", y.getD 1 ""] y statsColumns c
        by_cases hk1 : k = [y.getD 0 "", y.getD 1 ""]
        · have hg : g ∉ statsColumns.map Prod.fst := fun c1 => hk ⟨hk1, c1⟩
          rw [hfam g hg]
        · exact hkeep g k hk1
      rw [keep a, keep b, hab]

theorem applyStatsRow_scalars (y : List String) (a : Exporter) :
    (applyStatsRow a y).totalScrapes = a.totalScrapes ∧
    (applyStatsRow a y).locustUp = a.locustUp := by
  unfold applyStatsRow
  by_cases hs : isStatsSentinel y
  · simp [hs]
  · simp only [hs, if_false]
    obtain ⟨h1, h2, _⟩ := putColumns_frame [y.getD 0 "", y.getD 1 ""] y statsColumns a
    exact ⟨h1, h2⟩

theorem foldl_applyStatsRow_scalars (rows : List (List String)) (a : Exporter) :
    (rows.foldl applyStatsRow a).totalScrapes = a.totalScrapes ∧
    (rows.foldl applyStatsRow a).locustUp = a.locustUp := by
  induction rows generalizing a with
  | nil => exact ⟨rfl, rfl⟩
  | cons y rest ih =>
    obtain ⟨h1, h2⟩ := ih (applyStatsRow a y)
    obtain ⟨h3, h4⟩ := applyStatsRow_scalars y a
    exact ⟨h1.trans h3, h2.trans h4⟩

theorem foldl_applyStatsRow_agree (rows : List (List String)) (a b : Exporter) (g : Family)
    (k : List String)
    (h : (a.vec g).find k = (b.vec g).find k ∨
      ∃ y, y ∈ rows ∧ ¬ isStatsSentinel y ∧ k = [y.getD 0 "", y.getD 1 ""] ∧
        g ∈ statsColumns.map Prod.fst) :
    ((rows.foldl applyStatsRow a).vec g).find k
      = ((rows.foldl applyStatsRow b).vec g).find k := by
  induction rows generalizing a b with
  | nil =>
    rcases h with h | ⟨y, hy, _⟩
    · exact h
    · simp at hy
  | cons x rest ih =>
    simp only [List.foldl_cons]
    apply ih
    rcases h with h | ⟨y, hy, hys, hyk, hyg⟩
    · exact Or.inl (applyStatsRow_agree x a b g k (Or.inl h))
    · rcases List.mem_cons.mp hy with hyx | hyr
      · subst hyx
        exact Or.inl (applyStatsRow_agree y a b g k (Or.inr ⟨hys, hyk, hyg⟩))
      · exact Or.inr ⟨y, hyr, hys, hyk, hyg⟩

theorem readLoop_stats_closed (rows : List (List String)) (e : Exporter)
    (h : ∀ x, x ∈ rows → 17 ≤ x.length) :
    readLoop statsRecord (rows.map ReadResult.record) e
      = .done () (rows.foldl applyStatsRow e) := by
  induction rows generalizing e with
  | nil => rfl
  | cons x rest ih =>
    have hrest : ∀ y, y ∈ rest → 17 ≤ y.length := fun y hy => h y (by simp [hy])
    simp only [List.map_cons, readLoop, List.foldl_cons]
    by_cases hs : isStatsSentinel x
    · rw [statsRecord_sentinel x e hs]
      simp only [applyStatsRow, hs, if_true]
      exact ih e hrest
    · rw [statsRecord_done x e (h x (by simp)) hs]
      simp only [applyStatsRow, hs, if_false]
      exact ih _ hrest

theorem Exporter.Agree.create_congr {a b : Exporter} (h : a.Agree b) (f : Family)
    (lvs : List String) : (a.create f lvs).Agree (b.create f lvs) := by
  obtain ⟨h1, h2, h3⟩ := h
  refine ⟨h1, h2, ?_⟩
  intro g k
  rw [Exporter.create_find, Exporter.create_find, h3 g k, h3 f lvs]

theorem Exporter.Agree.put_congr {a b : Exporter} (h : a.Agree b) (f : Family)
    (lvs : List String) (x : Float64) : (a.put f lvs x).Agree (b.put f lvs x) := by
  obtain ⟨h1, h2, h3⟩ := h
  refine ⟨h1, h2, ?_⟩
  intro g k
  rw [Exporter.put_find, Exporter.put_find, h3 g k]

theorem setFromColumn_agree (labels : List Nat) (record : List String) (f : Family)
    (col : Nat) (a b : Exporter) (h : a.Agree b) :
    RunAgree (setFromColumn labels record f col a) (setFromColumn labels record f col b) := by
  unfold setFromColumn
  cases hl : labelValues record labels with
  | none => exact h
  | some lvs =>
    by_cases ha : lvs.length = f.desc.variableLabels.length
    · cases hx : getFloat64Element record col with
      | none =>
        simp only [WithLabelValues, ha, ne_eq, not_true_eq_false, if_false, hx]
        exact h.create_congr f lvs
      | some x =>
        simp only [WithLabelValues, ha, ne_eq, not_true_eq_false, if_false, hx]
        exact h.put_congr f lvs x
    · simp only [WithLabelValues, ne_eq, ha, not_false_eq_true, if_true]
      exact h

theorem setColumns_agree (labels : List Nat) (record : List String)
    (tbl : List (Family × Nat)) (a b : Exporter) (h : a.Agree b) :
    RunAgree (setColumns labels record tbl a) (setColumns labels record tbl b) := by
  induction tbl generalizing a b with
  | nil => exact h
  | cons fc rest ih =>
    obtain ⟨f, col⟩ := fc
    have h1 := setFromColumn_agree labels record f col a b h
    unfold setColumns
    cases ha : setFromColumn labels record f col a with
    | fatal a1 =>
      cases hb : setFromColumn labels record f col b with
      | fatal b1 => rw [ha, hb] at h1; exact h1
      | done u b1 => rw [ha, hb] at h1; exact h1.elim
    | done u a1 =>
      cases hb : setFromColumn labels record f col b with
      | fatal b1 => rw [ha, hb] at h1; exact h1.elim
      | done u1 b1 =>
        rw [ha, hb] at h1
        exact ih a1 b1 h1

theorem failuresRecord_agree (record : List String) (a b : Exporter) (h : a.Agree b) :
    RunAgree (failuresRecord record a) (failuresRecord record b) := by
  unfold failuresRecord
  cases h0 : record[0]? with
  | none => exact h
  | some r0 =>
    by_cases hc : r0 ≠ "Method"
    · simp only [hc, ne_eq, not_false_eq_true, if_true]
      exact setColumns_agree _ _ _ a b h
    · simp only [hc, if_false]
      exact h

theorem readLoop_agree (body : List String → Exporter → Run Unit)
    (hbody : ∀ r a b, Exporter.Agree a b → RunAgree (body r a) (body r b))
    (results : List ReadResult) (a b : Exporter) (h : a.Agree b) :
    RunAgree (readLoop body results a) (readLoop body results b) := by
  induction results generalizing a b with
  | nil => exact h
  | cons x rest ih =>
    cases x with
    | error => exact h
    | record r =>
      have h1 := hbody r a b h
      unfold readLoop
      cases ha : body r a with
      | fatal a1 =>
        cases hb : body r b with
        | fatal b1 => rw [ha, hb] at h1; exact h1
        | done u b1 => rw [ha, hb] at h1; exact h1.elim
      | done u a1 =>
        cases hb : body r b with
        | fatal b1 => rw [ha, hb] at h1; exact h1.elim
        | done u1 b1 =>
          rw [ha, hb] at h1
          exact ih a1 b1 h1

theorem scrape_agree_of_stats (e a b : Exporter) (stats1 stats2 : List Line)
    (csvFailureFile : Option (List Line))
    (h1 : readLoop statsRecord (readAll 0 stats1)
      { e with totalScrapes := Counter.Inc e.totalScrapes } = .done () a)
    (h2 : readLoop statsRecord (readAll 0 stats2)
      { e with totalScrapes := Counter.Inc e.totalScrapes } = .done () b)
    (hab : a.Agree b) :
    (scrape e (some stats1) csvFailureFile).exporter.Agree
      (scrape e (some stats2) csvFailureFile).exporter ∧
    (scrape e (some stats1) csvFailureFile).result
      = (scrape e (some stats2) csvFailureFile).result := by
  simp only [scrape, h1, h2]
  cases csvFailureFile with
  | none => exact ⟨hab, rfl⟩
  | some failures =>
    have h3 := readLoop_agree failuresRecord failuresRecord_agree (readAll 0 failures) a b hab
    simp only []
    cases ha : readLoop failuresRecord (readAll 0 failures) a with
    | fatal a1 =>
      cases hb : readLoop failuresRecord (readAll 0 failures) b with
      | fatal b1 => rw [ha, hb] at h3; exact ⟨h3, rfl⟩
      | done u b1 => rw [ha, hb] at h3; exact h3.elim
    | done u a1 =>
      cases hb : readLoop failuresRecord (readAll 0 failures) b with
      | fatal b1 => rw [ha, hb] at h3; exact h3.elim
      | done u1 b1 => rw [ha, hb] at h3; exact ⟨h3, rfl⟩

theorem stats_earlier_row_no_effect (e : Exporter) (pre1 pre2 post : List (List String))
    (x r : List String) (n : Nat) (csvFailureFile : Option (List Line)) (hn : 17 ≤ n)
    (hlen : ∀ y, y ∈ pre1 ++ x :: pre2 ++ r :: post → y.length = n)
    (hs : ¬ isStatsSentinel r)
    (hx : (x.getD 0 "", x.getD 1 "") = (r.getD 0 "", r.getD 1 "")) :
    (scrape e (some ((pre1 ++ x :: pre2 ++ r :: post).map Line.fields))
        csvFailureFile).exporter.Agree
      (scrape e (some ((pre1 ++ pre2 ++ r :: post).map Line.fields))
        csvFailureFile).exporter ∧
    (scrape e (some ((pre1 ++ x :: pre2 ++ r :: post).map Line.fields))
        csvFailureFile).result
      = (scrape e (some ((pre1 ++ pre2 ++ r :: post).map Line.fields))
        csvFailureFile).result := by
  have hlen2 : ∀ y, y ∈ pre1 ++ pre2 ++ r :: post → y.length = n := by
    intro y hy
    apply hlen y
    simp only [List.mem_append, List.mem_cons] at hy ⊢
    tauto
  have hr1 : readAll 0 ((pre1 ++ x :: pre2 ++ r :: post).map Line.fields)
      = (pre1 ++ x :: pre2 ++ r :: post).map ReadResult.record :=
    readAll_uniform n (by omega) _ hlen 0 (Or.inl rfl)
  have hr2 : readAll 0 ((pre1 ++ pre2 ++ r :: post).map Line.fields)
      = (pre1 ++ pre2 ++ r :: post).map ReadResult.record :=
    readAll_uniform n (by omega) _ hlen2 0 (Or.inl rfl)
  have hc1 := readLoop_stats_closed (pre1 ++ x :: pre2 ++ r :: post)
    { e with totalScrapes := Counter.Inc e.totalScrapes }
    (fun y hy => by rw [hlen y hy]; exact hn)
  have hc2 := readLoop_stats_closed (pre1 ++ pre2 ++ r :: post)
    { e with totalScrapes := Counter.Inc e.totalScrapes }
    (fun y hy => by rw [hlen2 y hy]; exact hn)
  rw [← hr1] at hc1
  rw [← hr2] at hc2
  refine scrape_agree_of_stats e _ _ _ _ csvFailureFile hc1 hc2 ?_
  refine ⟨?_, ?_, ?_⟩
  · rw [(foldl_applyStatsRow_scalars _ _).1, (foldl_applyStatsRow_scalars _ _).1]
  · rw [(foldl_applyStatsRow_scalars _ _).2, (foldl_applyStatsRow_scalars _ _).2]
  · intro g k
    have e1 : pre1 ++ x :: pre2 ++ r :: post = pre1 ++ (x :: (pre2 ++ r :: post)) := by simp
    have e2 : pre1 ++ pre2 ++ r :: post = pre1 ++ (pre2 ++ r :: post) := by simp
    rw [e1, e2, List.foldl_append, List.foldl_append, List.foldl_cons]
    apply foldl_applyStatsRow_agree
    have hxs : ¬ isStatsSentinel x := by
      have h0 : x.getD 0 "" = r.getD 0 "" := congrArg Prod.fst hx
      have hx0 : x[0]? = some (x.getD 0 "") := by
        have : 0 < x.length := by rw [hlen x (by simp)]; omega
        simp [List.getD, List.getElem?_eq_getElem this]
      have hr0 : r[0]? = some (r.getD 0 "") := by
        have : 0 < r.length := by rw [hlen r (by simp)]; omega
        simp [List.getD, List.getElem?_eq_getElem this]
      unfold isStatsSentinel at hs ⊢
      rw [hx0, h0, ← hr0]
      exact hs
    by_cases hk : k = [r.getD 0 "", r.getD 1 ""] ∧ g ∈ statsColumns.map Prod.fst
    · exact Or.inr ⟨r, by simp, hs, hk.1, hk.2⟩
    · left
      have hstep : ∀ c : Exporter,
          applyStatsRow c x = putColumns [x.getD 0 "", x.getD 1 ""] x statsColumns c := by
        intro c
        simp only [applyStatsRow, hxs, if_false]
      rw [hstep]
      obtain ⟨_, _, hfam, hkeep, _⟩ :=
        putColumns_frame [x.getD 0 "", x.getD 1 ""] x statsColumns
          (pre1.foldl applyStatsRow { e with totalScrapes := Counter.Inc e.totalScrapes })
      by_cases hk1 : k = [x.getD 0 "", x.getD 1 ""]
      · have hx0 : x.getD 0 "" = r.getD 0 "" := congrArg Prod.fst hx
        have hx1 : x.getD 1 "" = r.getD 1 "" := congrArg Prod.snd hx
        have hkr : k = [r.getD 0 "", r.getD 1 ""] := by
          rw [hk1, hx0, hx1]
        have hg : g ∉ statsColumns.map Prod.fst := fun c1 => hk ⟨hkr, c1⟩
        rw [hfam g hg]
      · exact hkeep g k hk1


theorem statsRecord_short (e : Exporter) (record : List String)
    (h1 : 1 ≤ record.length) (h16 : record.length ≤ 16) (hs : ¬ isStatsSentinel record) :
    ∃ e1, statsRecord record e = .fatal e1 ∧
      (record.length = 1 → e1 = e) ∧
      (2 ≤ record.length →
        ∃ done f col later, statsColumns = done ++ (f, col) :: later ∧
          (∀ fc, fc ∈ done → fc.2 < record.length) ∧ record.length ≤ col ∧
          e1 = (putColumns [record.getD 0 "", record.getD 1 ""] record done e).create f
                [record.getD 0 "", record.getD 1 ""] ∧
          (∀ g c, (g, c) ∈ done →
            (e1.vec g).find [record.getD 0 "", record.getD 1 ""]
              = some (ParseFloat (record.getD c "")).1) ∧
          (e1.vec f).find [record.getD 0 "", record.getD 1 ""]
            = some (((e.vec f).find [record.getD 0 "", record.getD 1 ""]).getD
                Float64.zero)) := by
  have h0 : record[0]? = some (record.getD 0 "") := by
    simp [List.getD, List.getElem?_eq_getElem (show 0 < record.length by omega)]
  have hT : record.getD 0 "" ≠ "Type" := by
    intro c; exact hs (Or.inl (by rw [h0, c]))
  have hN : record.getD 0 "" ≠ "None" := by
    intro c; exact hs (Or.inr (by rw [h0, c]))
  have hbody : statsRecord record e = setColumns [0, 1] record statsColumns e := by
    unfold statsRecord
    rw [h0]
    simp only [ne_eq, hT, not_false_eq_true, hN, and_self, if_true]
  by_cases hlen : record.length = 1
  · refine ⟨e, ?_, fun _ => rfl, fun h2 => by omega⟩
    rw [hbody]
    match record, hlen with
    | [a], _ => rfl
  · have h2 : 2 ≤ record.length := by omega
    obtain ⟨done, f, col, later, hsplit, hdone, hcol⟩ := statsColumns_split record.length h16
    have hmem : ∀ fc, fc ∈ done → fc ∈ statsColumns := by
      intro fc hfc; rw [hsplit]; simp [hfc]
    have hfmem : (f, col) ∈ statsColumns := by rw [hsplit]; simp
    have hnd : (done.map Prod.fst).Nodup ∧ f ∉ done.map Prod.fst := by
      have hn := statsColumns_nodup
      rw [hsplit, List.map_append, List.map_cons, List.nodup_append] at hn
      obtain ⟨hn1, _, hdisj⟩ := hn
      exact ⟨hn1, fun c => hdisj c (by simp)⟩
    refine ⟨_, ?_, fun c => absurd c hlen, fun _ =>
      ⟨done, f, col, later, hsplit, hdone, hcol, rfl, ?_, ?_⟩⟩
    · rw [hbody, hsplit]
      exact setColumns_fatal [0, 1] record _ (labelValues_two record h2) done later f col e
        (fun fc hfc => ⟨by simp [(statsColumns_spec fc (hmem fc hfc)).1], hdone fc hfc⟩)
        (by simp [(statsColumns_spec (f, col) hfmem).1]) hcol
    · intro g c hgc
      have hgne : g ≠ f := by
        intro c1
        exact hnd.2 (by rw [← c1]; exact List.mem_map_of_mem Prod.fst hgc)
      rw [Exporter.create_find]
      simp only [hgne, false_and, if_false]
      exact putColumns_find _ record done e hnd.1 g c hgc
    · rw [Exporter.create_find]
      simp only [and_self, if_true]
      rw [putColumns_vec_notin _ record done e f hnd.2]


theorem readAll_append (n : Nat) (a b : List Line) :
    readAll n (a ++ b) = readAll n a ++ readAll (fieldsPerRecordAfter n a) b := by
  induction a generalizing n with
  | nil => rfl
  | cons x rest ih =>
    cases x with
    | malformed => simp [readAll, fieldsPerRecordAfter, ih]
    | fields r =>
      by_cases hn : 0 < n
      · simp [readAll, fieldsPerRecordAfter, hn, ih]
      · simp [readAll, fieldsPerRecordAfter, hn, ih]

theorem scrape_stats_fatal (e e1 : Exporter) (stats : List Line)
    (csvFailureFile : Option (List Line))
    (h : readLoop statsRecord (readAll 0 stats)
      { e with totalScrapes := Counter.Inc e.totalScrapes } = .fatal e1) :
    scrape e (some stats) csvFailureFile = .fatal e1 := by
  simp only [scrape, h]

theorem statsLoop_at_row (pre post : List Line) (record : List String) (e0 : Exporter) :
    readLoop statsRecord (readAll 0 (pre ++ Line.fields record :: post)) e0
      = match readLoop statsRecord (readAll 0 pre) e0 with
        | .fatal ea => .fatal ea
        | .done _ ea =>
          if 0 < fieldsPerRecordAfter 0 pre ∧ record.length ≠ fieldsPerRecordAfter 0 pre
          then .fatal ea
          else
            match statsRecord record ea with
            | .fatal e1 => .fatal e1
            | .done _ e1 =>
              readLoop statsRecord
                (readAll (if 0 < fieldsPerRecordAfter 0 pre then fieldsPerRecordAfter 0 pre
                  else record.length) post) e1 := by
  rw [readAll_append, readLoop_append]
  cases hpre : readLoop statsRecord (readAll 0 pre) e0 with
  | fatal ea => rfl
  | done u ea =>
    simp only []
    by_cases hm : 0 < fieldsPerRecordAfter 0 pre
    · by_cases hne : record.length ≠ fieldsPerRecordAfter 0 pre
      · simp [readAll, hm, hne, readLoop]
      · simp only [readAll, hm, if_true, hne, if_false, readLoop, and_false]
    · simp only [readAll, hm, if_false, readLoop, false_and]

/-! ## The claims -/

/-- C1: a stats row with at least 17 fields whose field 0 is neither "Type" nor
"None" is processed without a panic and leaves, under the label tuple
(field 0, field 1), num_requests, num_failures, median_response_time,
avg_response_time, min_response_time, max_response_time, avg_content_length,
current_rps, current_fail_per_sec, percentile_50 and percentile_95 equal to
what `ParseFloat` returns for columns 2, 3, 4, 5, 6, 7, 8, 9, 10, 11 and 16;
a row that agrees with it on columns 0-11 and 16 leaves the same store, so
columns 12-15 have no influence. -/
theorem C1_stats_row_sets_families_from_columns (e : Exporter) (record : List String)
    (h17 : 17 ≤ record.length) (hT : record[0]? ≠ some "Type")
    (hN : record[0]? ≠ some "None") :
    ∃ e1, statsRecord record e = .done () e1 ∧
      (e1.vec .locustNumRequests).find [record.getD 0 "", record.getD 1 ""]
        = some (ParseFloat (record.getD 2 "")).1 ∧
      (e1.vec .locustNumFailures).find [record.getD 0 "", record.getD 1 ""]
        = some (ParseFloat (record.getD 3 "")).1 ∧
      (e1.vec .locustMedianResponseTime).find [record.getD 0 "", record.getD 1 ""]
        = some (ParseFloat (record.getD 4 "")).1 ∧
      (e1.vec .locustAvgResponseTime).find [record.getD 0 "", record.getD 1 ""]
        = some (ParseFloat (record.getD 5 "")).1 ∧
      (e1.vec .locustMinResponseTime).find [record.getD 0 "", record.getD 1 ""]
        = some (ParseFloat (record.getD 6 "")).1 ∧
      (e1.vec .locustMaxResponseTime).find [record.getD 0 "", record.getD 1 ""]
        = some (ParseFloat (record.getD 7 "")).1 ∧
      (e1.vec .locustAvgContentLength).find [record.getD 0 "", record.getD 1 ""]
        = some (ParseFloat (record.getD 8 "")).1 ∧
      (e1.vec .locustCurrentRps).find [record.getD 0 "", record.getD 1 ""]
        = some (ParseFloat (record.getD 9 "")).1 ∧
      (e1.vec .locustCurrentFailPerSec).find [record.getD 0 "", record.getD 1 ""]
        = some (ParseFloat (record.getD 10 "")).1 ∧
      (e1.vec .locustCurrentResponseTimePercentileFiftieth).find
          [record.getD 0 "", record.getD 1 ""]
        = some (ParseFloat (record.getD 11 "")).1 ∧
      (e1.vec .locustCurrentResponseTimePercentileNinetyFifth).find
          [record.getD 0 "", record.getD 1 ""]
        = some (ParseFloat (record.getD 16 "")).1 ∧
      (∀ record2 : List String, 17 ≤ record2.length →
        (∀ i, i ∈ [0, 1, 2, 3, 4, 5, 6, 7, 8, 9, 10, 11, 16] → record2[i]? = record[i]?) →
        statsRecord record2 e = .done () e1) := by
  have hs : ¬ isStatsSentinel record := fun c => c.elim hT hN
  have hfind := fun f col hm =>
    putColumns_find [record.getD 0 "", record.getD 1 ""] record statsColumns e
      statsColumns_nodup f col hm
  refine ⟨_, statsRecord_done record e h17 hs, hfind _ _ (by decide), hfind _ _ (by decide),
    hfind _ _ (by decide), hfind _ _ (by decide), hfind _ _ (by decide), hfind _ _ (by decide),
    hfind _ _ (by decide), hfind _ _ (by decide), hfind _ _ (by decide), hfind _ _ (by decide),
    hfind _ _ (by decide), ?_⟩
  intro record2 h2 hagree
  have hget : ∀ i, i ∈ [0, 1, 2, 3, 4, 5, 6, 7, 8, 9, 10, 11, 16] →
      record2.getD i "" = record.getD i "" := by
    intro i hi
    rw [List.getD_eq_getElem?_getD, List.getD_eq_getElem?_getD, hagree i hi]
  have hs2 : ¬ isStatsSentinel record2 := by
    unfold isStatsSentinel
    rw [hagree 0 (by decide)]
    exact hs
  rw [statsRecord_done record2 e h2 hs2, hget 0 (by decide), hget 1 (by decide)]
  congr 1
  apply putColumns_congr
  intro fc hfc
  apply hget
  revert fc
  decide

/-- C1, on the row of the specification's example and a fresh store: the
eleven families hold 100, 2, 120, 130, 50, 900, 512, 10.5, the float64 nearest
to 0.2, 110 and 180 under ("GET", "/login"); `finite false m x` is `m * 2^x`. -/
theorem C1_example_row_witness :
    ∃ e1, statsRecord exampleStatsRow NewExporter = .done () e1 ∧
      (e1.vec .locustNumRequests).find ["GET", "/login"]
        = some (.finite false (100 * 2 ^ 46) (-46)) ∧
      (e1.vec .locustNumFailures).find ["GET", "/login"]
        = some (.finite false (2 * 2 ^ 51) (-51)) ∧
      (e1.vec .locustMedianResponseTime).find ["GET", "/login"]
        = some (.finite false (120 * 2 ^ 46) (-46)) ∧
      (e1.vec .locustAvgResponseTime).find ["GET", "/login"]
        = some (.finite false (130 * 2 ^ 45) (-45)) ∧
      (e1.vec .locustMinResponseTime).find ["GET", "/login"]
        = some (.finite false (50 * 2 ^ 47) (-47)) ∧
      (e1.vec .locustMaxResponseTime).find ["GET", "/login"]
        = some (.finite false (900 * 2 ^ 43) (-43)) ∧
      (e1.vec .locustAvgContentLength).find ["GET", "/login"]
        = some (.finite false (512 * 2 ^ 43) (-43)) ∧
      (e1.vec .locustCurrentRps).find ["GET", "/login"]
        = some (.finite false (21 * 2 ^ 48) (-49)) ∧
      (e1.vec .locustCurrentFailPerSec).find ["GET", "/login"]
        = some (.finite false 0x1999999999999A (-55)) ∧
      (e1.vec .locustCurrentResponseTimePercentileFiftieth).find ["GET", "/login"]
        = some (.finite false (110 * 2 ^ 46) (-46)) ∧
      (e1.vec .locustCurrentResponseTimePercentileNinetyFifth).find ["GET", "/login"]
        = some (.finite false (180 * 2 ^ 45) (-45)) := by
  obtain ⟨e1, h0, h2, h3, h4, h5, h6, h7, h8, h9, h10, h11, h16, _⟩ :=
    C1_stats_row_sets_families_from_columns NewExporter exampleStatsRow
      (by decide) (by decide) (by decide)
  have v2 : (ParseFloat "100").1 = .finite false (100 * 2 ^ 46) (-46) := by decide
  have v3 : (ParseFloat "2").1 = .finite false (2 * 2 ^ 51) (-51) := by decide
  have v4 : (ParseFloat "120").1 = .finite false (120 * 2 ^ 46) (-46) := by decide
  have v5 : (ParseFloat "130").1 = .finite false (130 * 2 ^ 45) (-45) := by decide
  have v6 : (ParseFloat "50").1 = .finite false (50 * 2 ^ 47) (-47) := by decide
  have v7 : (ParseFloat "900").1 = .finite false (900 * 2 ^ 43) (-43) := by decide
  have v8 : (ParseFloat "512").1 = .finite false (512 * 2 ^ 43) (-43) := by decide
  have v9 : (ParseFloat "10.5").1 = .finite false (21 * 2 ^ 48) (-49) := by decide
  have v10 : (ParseFloat "0.2").1 = .finite false 0x1999999999999A (-55) := by decide
  have v11 : (ParseFloat "110").1 = .finite false (110 * 2 ^ 46) (-46) := by decide
  have v16 : (ParseFloat "180").1 = .finite false (180 * 2 ^ 45) (-45) := by decide
  simp only [exampleStatsRow, List.getD_cons_zero, List.getD_cons_succ] at h2 h3 h4 h5 h6 h7 h8 h9 h10 h11 h16
  exact ⟨e1, h0, h2.trans (congrArg some v2), h3.trans (congrArg some v3),
    h4.trans (congrArg some v4), h5.trans (congrArg some v5), h6.trans (congrArg some v6),
    h7.trans (congrArg some v7), h8.trans (congrArg some v8), h9.trans (congrArg some v9),
    h10.trans (congrArg some v10), h11.trans (congrArg some v11),
    h16.trans (congrArg some v16)⟩

/-- C2: a failures row with at least 4 fields whose field 0 is not "Method" is
processed without a panic, leaves the errors family holding under
(field 0, field 1, field 2) what `ParseFloat` returns for field 3, and changes
no other family (nor the health gauge, the scrape counter or another label
tuple of the errors family). -/
theorem C2_failures_row_sets_errors_entry (e : Exporter) (record : List String)
    (h4 : 4 ≤ record.length) (hM : record[0]? ≠ some "Method") :
    ∃ e1, failuresRecord record e = .done () e1 ∧
      (e1.vec .locustErrors).find [record.getD 0 "", record.getD 1 "", record.getD 2 ""]
        = some (ParseFloat (record.getD 3 "")).1 ∧
      (∀ g, g ≠ .locustErrors → e1.vec g = e.vec g) ∧
      (∀ k, k ≠ [record.getD 0 "", record.getD 1 "", record.getD 2 ""] →
        (e1.vec .locustErrors).find k = (e.vec .locustErrors).find k) ∧
      e1.locustUp = e.locustUp ∧ e1.totalScrapes = e.totalScrapes := by
  refine ⟨_, failuresRecord_done record e h4 hM, ?_, ?_, ?_, rfl, rfl⟩
  · rw [Exporter.put_find]; simp
  · intro g hg; exact Exporter.put_vec_ne e _ g _ _ hg
  · intro k hk; rw [Exporter.put_find, if_neg (fun c => hk c.2)]

/-- C2, on the row of the specification's example and a fresh store: the
errors family holds 7 under ("POST", "/cart", "Connection refused"). -/
theorem C2_example_row_witness :
    ∃ e1, failuresRecord exampleFailuresRow NewExporter = .done () e1 ∧
      (e1.vec .locustErrors).find ["POST", "/cart", "Connection refused"]
        = some (.finite false (7 * 2 ^ 50) (-50)) ∧
      (∀ g, g ≠ .locustErrors → e1.vec g = NewExporter.vec g) := by
  obtain ⟨e1, h0, h3, hother, _⟩ :=
    C2_failures_row_sets_errors_entry NewExporter exampleFailuresRow (by decide) (by decide)
  have v3 : (ParseFloat "7").1 = .finite false (7 * 2 ^ 50) (-50) := by decide
  simp only [exampleFailuresRow, List.getD_cons_zero, List.getD_cons_succ] at h3
  exact ⟨e1, h0, h3.trans (congrArg some v3), hother⟩

/-- C3 as stated fails: the cell "1e999" fails to parse (`ParseFloat` returns
the error `ErrRange`), yet `getFloat64Element` returns +Inf, not 0.0, and +Inf
is what the row publishes for num_requests. -/
theorem C3_counterexample_range_error_gives_infinity :
    (ParseFloat "1e999").2 = some .ErrRange ∧
    getFloat64Element overflowStatsRow 2 = some (.inf false) ∧
    getFloat64Element overflowStatsRow 2 ≠ some Float64.zero ∧
    ((statsRecord overflowStatsRow NewExporter).exporter.vec .locustNumRequests).find
      ["GET", "/login"] = some (.inf false) := by
  decide!

/-- C3 amended: when the text of field i fails to parse, `getFloat64Element`
returns exactly 0.0 if the failure is a syntax error and an infinity if it is a
range error (a well-formed number too large for float64); it never panics on
the text. In a row of at least 17 fields that is not a sentinel, every other
mapped column still publishes what `ParseFloat` returns for its own cell. -/
theorem C3_parse_failure_gives_zero_or_infinity (record : List String) (i : Nat) (s : String)
    (hi : record[i]? = some s) (hfail : (ParseFloat s).2 ≠ none) :
    (((ParseFloat s).2 = some .ErrSyntax ∧ getFloat64Element record i = some Float64.zero) ∨
     ((ParseFloat s).2 = some .ErrRange ∧
        ∃ neg, getFloat64Element record i = some (.inf neg))) ∧
    (∀ e : Exporter, 17 ≤ record.length → ¬ isStatsSentinel record →
      ∀ f col, (f, col) ∈ statsColumns → col ≠ i →
        ((statsRecord record e).exporter.vec f).find [record.getD 0 "", record.getD 1 ""]
          = some (ParseFloat (record.getD col "")).1) := by
  constructor
  · cases herr : (ParseFloat s).2 with
    | none => exact absurd herr hfail
    | some err =>
      cases err with
      | ErrSyntax =>
        left
        exact ⟨rfl, by simp [getFloat64Element, hi, ParseFloat_syntax s herr]⟩
      | ErrRange =>
        right
        obtain ⟨neg, hneg⟩ := ParseFloat_range s herr
        exact ⟨rfl, neg, by simp [getFloat64Element, hi, hneg]⟩
  · intro e h17 hs f col hm _
    rw [statsRecord_done record e h17 hs]
    exact putColumns_find _ record statsColumns e statsColumns_nodup f col hm

/-- C3 amended, on the example row with "N/A" in column 3: the cell is a syntax
error, num_failures is published as 0.0, and the other columns publish their
own values, for instance 100 for num_requests and 120 for the median. -/
theorem C3_parse_failure_witness :
    ((((ParseFloat "N/A").2 = some .ErrSyntax ∧
        getFloat64Element syntaxErrorStatsRow 3 = some Float64.zero) ∨
      ((ParseFloat "N/A").2 = some .ErrRange ∧
        ∃ neg, getFloat64Element syntaxErrorStatsRow 3 = some (.inf neg))) ∧
     (∀ e : Exporter, 17 ≤ syntaxErrorStatsRow.length → ¬ isStatsSentinel syntaxErrorStatsRow →
       ∀ f col, (f, col) ∈ statsColumns → col ≠ 3 →
         ((statsRecord syntaxErrorStatsRow e).exporter.vec f).find
             [syntaxErrorStatsRow.getD 0 "", syntaxErrorStatsRow.getD 1 ""]
           = some (ParseFloat (syntaxErrorStatsRow.getD col "")).1)) ∧
    (ParseFloat "N/A").2 = some .ErrSyntax ∧
    ((statsRecord syntaxErrorStatsRow NewExporter).exporter.vec .locustNumFailures).find
      ["GET", "/login"] = some Float64.zero ∧
    ((statsRecord syntaxErrorStatsRow NewExporter).exporter.vec .locustNumRequests).find
      ["GET", "/login"] = some (.finite false (100 * 2 ^ 46) (-46)) ∧
    ((statsRecord syntaxErrorStatsRow NewExporter).exporter.vec
      .locustMedianResponseTime).find ["GET", "/login"]
      = some (.finite false (120 * 2 ^ 46) (-46)) :=
  ⟨C3_parse_failure_gives_zero_or_infinity syntaxErrorStatsRow 3 "N/A" (by decide) (by decide),
    by decide, by decide, by decide, by decide⟩

/-- C4 as stated fails: a file whose only row has the three fields
"GET", "/x", "5" ends the process, but by then the row has created the
num_requests entry ("GET", "/x") with the value 5 and the num_failures entry
("GET", "/x") with the value 0, neither of which a fresh store has. -/
theorem C4_counterexample_short_row_changes_store :
    (scrape NewExporter (some [Line.fields shortStatsRow]) (some [])).result = none ∧
    (NewExporter.vec .locustNumRequests).find ["GET", "/x"] = none ∧
    (NewExporter.vec .locustNumFailures).find ["GET", "/x"] = none ∧
    ((scrape NewExporter (some [Line.fields shortStatsRow]) (some [])).exporter.vec
      .locustNumRequests).find ["GET", "/x"] = some (.finite false (5 * 2 ^ 50) (-50)) ∧
    ((scrape NewExporter (some [Line.fields shortStatsRow]) (some [])).exporter.vec
      .locustNumFailures).find ["GET", "/x"] = some Float64.zero := by
  decide

/-- C4 amended: on a stats file that contains a row with 1 to 16 fields whose
field 0 is not a sentinel, `scrape` never returns; the process ends at that row
or before it. When the process has not ended before the row and the reader
rejects the row (its number of fields is not that of the first record),
`log.Fatal` ends the process before the loop body and the row changes nothing.
When the reader returns the row (it is the first record, or has as many fields
as the first record), the loop body runs and ends the process after a partial
update: a row with one field leaves the store as it was; a row with n ≥ 2
fields has by then executed the statements whose column is below n, in order,
and the call of `WithLabelValues` of the first statement whose column is not,
so the families of the former are set at the row's (method, name) and the
family of the latter has an entry there (0 when new). -/
theorem C4_short_stats_row_halts_scrape (e : Exporter) (pre post : List Line)
    (record : List String) (csvFailureFile : Option (List Line))
    (h1 : 1 ≤ record.length) (h16 : record.length ≤ 16) (hs : ¬ isStatsSentinel record) :
    (scrape e (some (pre ++ Line.fields record :: post)) csvFailureFile).result = none ∧
    (∀ ea, readLoop statsRecord (readAll 0 pre)
        { e with totalScrapes := Counter.Inc e.totalScrapes } = .fatal ea →
      scrape e (some (pre ++ Line.fields record :: post)) csvFailureFile = .fatal ea) ∧
    (∀ ea, readLoop statsRecord (readAll 0 pre)
        { e with totalScrapes := Counter.Inc e.totalScrapes } = .done () ea →
      0 < fieldsPerRecordAfter 0 pre → record.length ≠ fieldsPerRecordAfter 0 pre →
      scrape e (some (pre ++ Line.fields record :: post)) csvFailureFile = .fatal ea) ∧
    (∀ ea, readLoop statsRecord (readAll 0 pre)
        { e with totalScrapes := Counter.Inc e.totalScrapes } = .done () ea →
      (fieldsPerRecordAfter 0 pre = 0 ∨ record.length = fieldsPerRecordAfter 0 pre) →
      ∃ e1, scrape e (some (pre ++ Line.fields record :: post)) csvFailureFile = .fatal e1 ∧
        (record.length = 1 → e1 = ea) ∧
        (2 ≤ record.length →
          ∃ done f col later, statsColumns = done ++ (f, col) :: later ∧
            (∀ fc, fc ∈ done → fc.2 < record.length) ∧ record.length ≤ col ∧
            e1 = (putColumns [record.getD 0 "", record.getD 1 ""] record done ea).create f
                  [record.getD 0 "", record.getD 1 ""] ∧
            (∀ g c, (g, c) ∈ done →
              (e1.vec g).find [record.getD 0 "", record.getD 1 ""]
                = some (ParseFloat (record.getD c "")).1) ∧
            (e1.vec f).find [record.getD 0 "", record.getD 1 ""]
              = some (((ea.vec f).find [record.getD 0 "", record.getD 1 ""]).getD
                  Float64.zero))) := by
  have hloop := statsLoop_at_row pre post record
    { e with totalScrapes := Counter.Inc e.totalScrapes }
  have hfatal : ∀ ea, readLoop statsRecord (readAll 0 pre)
        { e with totalScrapes := Counter.Inc e.totalScrapes } = .fatal ea →
      scrape e (some (pre ++ Line.fields record :: post)) csvFailureFile = .fatal ea := by
    intro ea hpre
    rw [hpre] at hloop
    exact scrape_stats_fatal e ea _ csvFailureFile hloop
  have hreject : ∀ ea, readLoop statsRecord (readAll 0 pre)
        { e with totalScrapes := Counter.Inc e.totalScrapes } = .done () ea →
      0 < fieldsPerRecordAfter 0 pre → record.length ≠ fieldsPerRecordAfter 0 pre →
      scrape e (some (pre ++ Line.fields record :: post)) csvFailureFile = .fatal ea := by
    intro ea hpre hm hne
    rw [hpre] at hloop
    simp only [hm, hne, ne_eq, not_false_eq_true, and_self, if_true] at hloop
    exact scrape_stats_fatal e ea _ csvFailureFile hloop
  have hbody : ∀ ea, readLoop statsRecord (readAll 0 pre)
        { e with totalScrapes := Counter.Inc e.totalScrapes } = .done () ea →
      (fieldsPerRecordAfter 0 pre = 0 ∨ record.length = fieldsPerRecordAfter 0 pre) →
      ∀ e1, statsRecord record ea = .fatal e1 →
      scrape e (some (pre ++ Line.fields record :: post)) csvFailureFile = .fatal e1 := by
    intro ea hpre hm e1 he1
    rw [hpre] at hloop
    have hcond : ¬ (0 < fieldsPerRecordAfter 0 pre ∧
        record.length ≠ fieldsPerRecordAfter 0 pre) := by
      rintro ⟨c1, c2⟩
      rcases hm with hm | hm
      · omega
      · exact c2 hm
    simp only [hcond, if_false, he1] at hloop
    exact scrape_stats_fatal e e1 _ csvFailureFile hloop
  refine ⟨?_, hfatal, hreject, ?_⟩
  · cases hpre : readLoop statsRecord (readAll 0 pre)
        { e with totalScrapes := Counter.Inc e.totalScrapes } with
    | fatal ea => rw [hfatal ea hpre]; rfl
    | done u ea =>
      by_cases hcond : 0 < fieldsPerRecordAfter 0 pre ∧
          record.length ≠ fieldsPerRecordAfter 0 pre
      · rw [hreject ea hpre hcond.1 hcond.2]; rfl
      · obtain ⟨e1, he1, _⟩ := statsRecord_short ea record h1 h16 hs
        have hm : fieldsPerRecordAfter 0 pre = 0 ∨
            record.length = fieldsPerRecordAfter 0 pre := by
          by_cases c1 : 0 < fieldsPerRecordAfter 0 pre
          · right
            by_contra c2
            exact hcond ⟨c1, c2⟩
          · left; omega
        rw [hbody ea hpre hm e1 he1]; rfl
  · intro ea hpre hm
    obtain ⟨e1, he1, hrest⟩ := statsRecord_short ea record h1 h16 hs
    exact ⟨e1, hbody ea hpre hm e1 he1, hrest⟩

/-- C4 amended, on a fresh store and the three-field row "GET", "/x", "5":
alone in the file, the row is processed and the process ends with num_requests
set to 5 and the num_failures entry created; after a header of 17 fields, the
reader rejects the row and the process ends with no entry written. -/
theorem C4_short_row_witness :
    (scrape NewExporter (some ([] ++ Line.fields shortStatsRow :: [])) (some [])).result
      = none ∧
    (∃ e1, scrape NewExporter (some ([] ++ Line.fields shortStatsRow :: [])) (some [])
        = .fatal e1) ∧
    ((scrape NewExporter (some ([] ++ Line.fields shortStatsRow :: [])) (some [])).exporter.vec
      .locustNumRequests).find ["GET", "/x"] = some (.finite false (5 * 2 ^ 50) (-50)) ∧
    ((scrape NewExporter (some ([] ++ Line.fields shortStatsRow :: [])) (some [])).exporter.vec
      .locustNumFailures).find ["GET", "/x"] = some Float64.zero ∧
    ((scrape NewExporter (some ([] ++ Line.fields shortStatsRow :: [])) (some [])).exporter.vec
      .locustMedianResponseTime).find ["GET", "/x"] = none ∧
    scrape NewExporter
        (some ([Line.fields ("Type" :: exampleStatsRow.drop 1)] ++
          Line.fields shortStatsRow :: [])) (some [])
      = .fatal { NewExporter with totalScrapes := Counter.Inc NewExporter.totalScrapes } ∧
    ((scrape NewExporter
        (some ([Line.fields ("Type" :: exampleStatsRow.drop 1)] ++
          Line.fields shortStatsRow :: [])) (some [])).exporter.vec
      .locustNumRequests).find ["GET", "/x"] = none :=
  ⟨(C4_short_stats_row_halts_scrape NewExporter [] [] shortStatsRow (some [])
      (by decide) (by decide) (by decide)).1,
    ((C4_short_stats_row_halts_scrape NewExporter [] [] shortStatsRow (some [])
      (by decide) (by decide) (by decide)).2.2.2 _ rfl (Or.inl rfl)).imp fun _ h => h.1,
    by decide, by decide, by decide,
    (C4_short_stats_row_halts_scrape NewExporter
      [Line.fields ("Type" :: exampleStatsRow.drop 1)] [] shortStatsRow (some [])
      (by decide) (by decide) (by decide)).2.2.1 _ rfl (by decide) (by decide),
    by decide⟩

/-- C5: a stats row whose field 0 is "Type" or "None" and a failures row whose
field 0 is "Method" end the loop body with the store exactly as it was,
whatever the other fields and however few; this also holds when the reader
rejects the row for its number of fields, the process then ending with the
store as it was. -/
theorem C5_sentinel_rows_leave_store_unchanged (e : Exporter) (rest : List String) (n : Nat) :
    statsRecord ("Type" :: rest) e = .done () e ∧
    statsRecord ("None" :: rest) e = .done () e ∧
    failuresRecord ("Method" :: rest) e = .done () e ∧
    (readLoop statsRecord (readAll n [Line.fields ("Type" :: rest)]) e).exporter = e ∧
    (readLoop statsRecord (readAll n [Line.fields ("None" :: rest)]) e).exporter = e ∧
    (readLoop failuresRecord (readAll n [Line.fields ("Method" :: rest)]) e).exporter = e := by
  have a1 : statsRecord ("Type" :: rest) e = .done () e := by simp [statsRecord]
  have a2 : statsRecord ("None" :: rest) e = .done () e := by simp [statsRecord]
  have a3 : failuresRecord ("Method" :: rest) e = .done () e := by simp [failuresRecord]
  refine ⟨a1, a2, a3, ?_, ?_, ?_⟩
  · by_cases hn : 0 < n
    · by_cases hl : rest.length + 1 = n
      · simp [readAll, hn, hl, readLoop, a1, Run.exporter]
      · simp [readAll, hn, hl, readLoop, Run.exporter]
    · simp [readAll, hn, readLoop, a1, Run.exporter]
  · by_cases hn : 0 < n
    · by_cases hl : rest.length + 1 = n
      · simp [readAll, hn, hl, readLoop, a2, Run.exporter]
      · simp [readAll, hn, hl, readLoop, Run.exporter]
    · simp [readAll, hn, readLoop, a2, Run.exporter]
  · by_cases hn : 0 < n
    · by_cases hl : rest.length + 1 = n
      · simp [readAll, hn, hl, readLoop, a3, Run.exporter]
      · simp [readAll, hn, hl, readLoop, Run.exporter]
    · simp [readAll, hn, readLoop, a3, Run.exporter]

/-- C6: when the stats file cannot be opened, `scrape` returns 0, every
family (the eleven aggregate ones and errors among them) and the health gauge
are as before, the result does not depend on the failures file, and the store
differs from the prior one in the scrape counter only, which was incremented. -/
theorem C6_stats_file_missing (e : Exporter) (csvFailureFile other : Option (List Line)) :
    scrape e none csvFailureFile
      = .done Float64.zero { e with totalScrapes := Counter.Inc e.totalScrapes } ∧
    (scrape e none csvFailureFile).result = some Float64.zero ∧
    (∀ g, (scrape e none csvFailureFile).exporter.vec g = e.vec g) ∧
    (scrape e none csvFailureFile).exporter.locustUp = e.locustUp ∧
    (scrape e none csvFailureFile).exporter.totalScrapes = (e.totalScrapes + 1) % 2 ^ 64 ∧
    scrape e none csvFailureFile = scrape e none other :=
  ⟨rfl, rfl, fun _ => rfl, rfl, rfl, rfl⟩

/-- C7: when the first loop processes the whole stats file and the failures file
cannot be opened, `scrape` returns 0; the errors family is as before the
scrape; and the aggregate families hold what the stats rows wrote: under the
identity of a non-sentinel row that no later non-sentinel row shares, each of
the eleven families holds what `ParseFloat` returns for its column of that
row. -/
theorem C7_failures_file_missing (e e1 : Exporter) (stats : List Line)
    (h : readLoop statsRecord (readAll 0 stats)
      { e with totalScrapes := Counter.Inc e.totalScrapes } = .done () e1) :
    scrape e (some stats) none = .done Float64.zero e1 ∧
    e1.vec .locustErrors = e.vec .locustErrors ∧
    (∀ (pre post : List Line) (r : List String), stats = pre ++ Line.fields r :: post →
      ¬ isStatsSentinel r →
      (∀ x, Line.fields x ∈ post → ¬ isStatsSentinel x →
        labelValues x [0, 1] ≠ labelValues r [0, 1]) →
      ∀ f col, (f, col) ∈ statsColumns →
        (e1.vec f).find [r.getD 0 "", r.getD 1 ""]
          = some (ParseFloat (r.getD col "")).1) := by
  refine ⟨scrape_failures_missing e e1 stats h, ?_, ?_⟩
  · have hfr := readLoop_frame statsRecord (statsColumns.map Prod.fst)
      (fun x k => ¬ isStatsSentinel x ∧ labelValues x [0, 1] = some k)
      statsRecord_frame (readAll 0 stats)
      { e with totalScrapes := Counter.Inc e.totalScrapes }
    rw [h] at hfr
    exact hfr.2.2.1 .locustErrors (by decide)
  · intro pre post r hsplit hs hpost f col hm
    exact stats_file_last stats _ e1 h pre post r hsplit hs hpost f col hm

/-- C7, on a store that already holds one errors entry, a stats file with a
header row and the example row, and no failures file: health 0, the errors
entry kept, the example row's values published. -/
theorem C7_failures_file_missing_witness :
    ∃ e1, scrape (NewExporter.put .locustErrors ["POST", "/cart", "Connection refused"]
          Float64.one)
        (some [Line.fields ("Type" :: exampleStatsRow.drop 1), Line.fields exampleStatsRow])
        none = .done Float64.zero e1 ∧
      (e1.vec .locustErrors).find ["POST", "/cart", "Connection refused"]
        = some Float64.one ∧
      (e1.vec .locustCurrentRps).find ["GET", "/login"]
        = some (.finite false (21 * 2 ^ 48) (-49)) := by
  refine ⟨_, (C7_failures_file_missing
    (NewExporter.put .locustErrors ["POST", "/cart", "Connection refused"] Float64.one) _
    [Line.fields ("Type" :: exampleStatsRow.drop 1), Line.fields exampleStatsRow] rfl).1,
    ?_, ?_⟩
  · decide
  · decide

/-- C8 fails on the code: on a fresh store, the stats file holding the example
row and the failures file holding the example failures row, `Describe`
describes the families percentile_95 and percentile_50 and `scrape` populates
them, but the metrics `Collect` sends are those of locust_up, of nine
aggregate families and of locust_errors: none of percentile_50, of
percentile_95 or of the counter locust_total_scrapes. -/
theorem C8_collect_omits_percentiles_and_scrape_counter :
    Family.locustCurrentResponseTimePercentileNinetyFifth.desc ∈ Describe ∧
    Family.locustCurrentResponseTimePercentileFiftieth.desc ∈ Describe ∧
    totalScrapesDesc ∉ Describe ∧
    ((Collect NewExporter (some [Line.fields exampleStatsRow])
        (some [Line.fields exampleFailuresRow])).exporter.vec
      .locustCurrentResponseTimePercentileNinetyFifth).find ["GET", "/login"]
      = some (.finite false (180 * 2 ^ 45) (-45)) ∧
    ((Collect NewExporter (some [Line.fields exampleStatsRow])
        (some [Line.fields exampleFailuresRow])).exporter.vec
      .locustCurrentResponseTimePercentileFiftieth).find ["GET", "/login"]
      = some (.finite false (110 * 2 ^ 46) (-46)) ∧
    (Collect NewExporter (some [Line.fields exampleStatsRow])
        (some [Line.fields exampleFailuresRow])).exporter.totalScrapes = 1 ∧
    ((Collect NewExporter (some [Line.fields exampleStatsRow])
        (some [Line.fields exampleFailuresRow])).result.map
      (fun ms => ms.map (fun m => (m.desc.fqName, m.value))))
      = some [("locust_up", Float64.one),
          ("locust_requests_num_requests", .finite false (100 * 2 ^ 46) (-46)),
          ("locust_requests_num_failures", .finite false (2 * 2 ^ 51) (-51)),
          ("locust_requests_avg_response_time", .finite false (130 * 2 ^ 45) (-45)),
          ("locust_requests_current_fail_per_sec", .finite false 0x1999999999999A (-55)),
          ("locust_requests_min_response_time", .finite false (50 * 2 ^ 47) (-47)),
          ("locust_requests_max_response_time", .finite false (900 * 2 ^ 43) (-43)),
          ("locust_requests_current_rps", .finite false (21 * 2 ^ 48) (-49)),
          ("locust_requests_median_response_time", .finite false (120 * 2 ^ 46) (-46)),
          ("locust_requests_avg_content_length", .finite false (512 * 2 ^ 43) (-43)),
          ("locust_errors", .finite false (7 * 2 ^ 50) (-50))] := by
  decide

/-- C9: in a stats file whose rows all have the same number n ≥ 17 of fields,
the first loop processes every row, and after `scrape` (however the failures
file is, and also when it ends the process) each of the eleven aggregate
families holds, under the identity of a non-sentinel row that no later
non-sentinel row shares, what `ParseFloat` returns for its column of that row:
the last row with an identity wins, whatever the rows before it. An earlier
row with the same identity has no effect: without it `scrape` ends the same
way with a store that holds the same. -/
theorem C9_last_row_with_identity_wins (e : Exporter) (pre post : List (List String))
    (r : List String) (n : Nat) (csvFailureFile : Option (List Line)) (hn : 17 ≤ n)
    (hlen : ∀ x, x ∈ pre ++ r :: post → x.length = n) (hs : ¬ isStatsSentinel r)
    (hpost : ∀ x, x ∈ post → ¬ isStatsSentinel x →
      (x.getD 0 "", x.getD 1 "") ≠ (r.getD 0 "", r.getD 1 "")) :
    (∃ e1, scrape e (some ((pre ++ r :: post).map Line.fields)) none
        = .done Float64.zero e1) ∧
    (∃ e1, scrape e (some ((pre ++ r :: post).map Line.fields)) (some [])
        = .done Float64.one e1) ∧
    (∀ f col, (f, col) ∈ statsColumns →
      ((scrape e (some ((pre ++ r :: post).map Line.fields)) csvFailureFile).exporter.vec
          f).find [r.getD 0 "", r.getD 1 ""]
        = some (ParseFloat (r.getD col "")).1) ∧
    (∀ pre1 pre2 x, pre = pre1 ++ x :: pre2 →
      (x.getD 0 "", x.getD 1 "") = (r.getD 0 "", r.getD 1 "") →
      (scrape e (some ((pre1 ++ x :: pre2 ++ r :: post).map Line.fields))
          csvFailureFile).exporter.Agree
        (scrape e (some ((pre1 ++ pre2 ++ r :: post).map Line.fields))
          csvFailureFile).exporter ∧
      (scrape e (some ((pre1 ++ x :: pre2 ++ r :: post).map Line.fields))
          csvFailureFile).result
        = (scrape e (some ((pre1 ++ pre2 ++ r :: post).map Line.fields))
          csvFailureFile).result) := by
  have hread : readAll 0 ((pre ++ r :: post).map Line.fields)
      = (pre ++ r :: post).map ReadResult.record :=
    readAll_uniform n (by omega) _ hlen 0 (Or.inl rfl)
  obtain ⟨e1, he1⟩ := readLoop_stats_total (pre ++ r :: post)
    { e with totalScrapes := Counter.Inc e.totalScrapes }
    (fun x hx => by rw [hlen x hx]; exact hn)
  have hloop : readLoop statsRecord (readAll 0 ((pre ++ r :: post).map Line.fields))
      { e with totalScrapes := Counter.Inc e.totalScrapes } = .done () e1 := by
    rw [hread]; exact he1
  refine ⟨⟨e1, by simp only [scrape, hloop]⟩,
    ⟨e1, by simp only [scrape, hloop, readAll, readLoop]⟩, ?_, ?_⟩
  swap
  · intro pre1 pre2 x hpre hx
    refine stats_earlier_row_no_effect e pre1 pre2 post x r n csvFailureFile hn ?_ hs hx
    intro y hy
    apply hlen y
    rw [hpre]
    simpa using hy
  intro f col hm
  have hlast : (e1.vec f).find [r.getD 0 "", r.getD 1 ""]
      = some (ParseFloat (r.getD col "")).1 := by
    rw [List.map_append, List.map_cons] at he1
    refine readLoop_stats_last _ _ r _ e1 he1 hs ?_ f col hm
    intro x hx hxs
    simp only [List.mem_map, ReadResult.record.injEq] at hx
    obtain ⟨y, hy, hxy⟩ := hx
    subst hxy
    have hy17 : 2 ≤ y.length := by
      rw [hlen y (by simp [hy])]; omega
    have hr17 : 2 ≤ r.length := by
      rw [hlen r (by simp)]; omega
    rw [labelValues_two y hy17, labelValues_two r hr17]
    intro c
    apply hpost y hy hxs
    simp only [Option.some.injEq, List.cons.injEq, and_true] at c
    rw [c.1, c.2]
  have hferr : f ≠ .locustErrors := by
    intro c
    have harity : f.desc.variableLabels.length = 2 := (statsColumns_spec (f, col) hm).1
    rw [c] at harity
    exact absurd harity (by decide)
  obtain ⟨e2, hfr1, hfr2⟩ := scrape_frame e (some ((pre ++ r :: post).map Line.fields))
    csvFailureFile
  have hsame : (scrape e (some ((pre ++ r :: post).map Line.fields))
      csvFailureFile).exporter.vec f = e1.vec f := by
    simp only [scrape, hloop]
    cases csvFailureFile with
    | none => rfl
    | some failures =>
      have hf2 := readLoop_frame failuresRecord [.locustErrors]
        (fun x k => x[0]? ≠ some "Method" ∧ labelValues x [0, 1, 2] = some k)
        failuresRecord_frame (readAll 0 failures) e1
      have hkeep := hf2.2.2.1 f (by simpa using hferr)
      simp only []
      cases hl2 : readLoop failuresRecord (readAll 0 failures) e1 with
      | fatal e3 => rw [hl2] at hkeep; exact hkeep
      | done u3 e3 => rw [hl2] at hkeep; exact hkeep
  rw [hsame]
  exact hlast

/-- C9, on a file of three rows, the first and the last with the identity
("GET", "/login"): every family holds under it the value of the last row, here
current_rps 10.5 and not the 99 of the first row. -/
theorem C9_last_row_wins_witness :
    (∃ e1, scrape NewExporter (some (([exampleStatsRow.set 9 "99",
          exampleStatsRow.set 1 "/other"] ++ exampleStatsRow :: []).map Line.fields)) none
        = .done Float64.zero e1) ∧
    ((scrape NewExporter (some (([exampleStatsRow.set 9 "99",
          exampleStatsRow.set 1 "/other"] ++ exampleStatsRow :: []).map Line.fields))
        (some [])).exporter.vec .locustCurrentRps).find ["GET", "/login"]
      = some (.finite false (21 * 2 ^ 48) (-49)) := by
  have h := C9_last_row_with_identity_wins NewExporter
    [exampleStatsRow.set 9 "99", exampleStatsRow.set 1 "/other"] [] exampleStatsRow 17
    (some []) (by decide) (by decide) (by decide) (by decide)
  refine ⟨h.1, ?_⟩
  have h9 := h.2.2.1 .locustCurrentRps 9 (by decide)
  have v9 : (ParseFloat "10.5").1 = .finite false (21 * 2 ^ 48) (-49) := by decide
  simp only [exampleStatsRow, List.getD_cons_zero, List.getD_cons_succ] at h9 ⊢
  exact h9.trans (congrArg some v9)

/-- C10: when `scrape` returns, a label tuple that a family held before is
still held by it after, and it keeps its value unless the scrape wrote it: in
a family other than errors, unless a non-sentinel row of the stats file has
that tuple as (field 0, field 1); in the errors family, unless a row of the
failures file not starting with "Method" has it as (field 0, field 1,
field 2). -/
theorem C10_no_family_shrinks (e e1 : Exporter) (csvStatsFile csvFailureFile : Option (List Line))
    (up : Float64) (h : scrape e csvStatsFile csvFailureFile = .done up e1)
    (g : Family) (k : List String) (v : Float64) (hv : (e.vec g).find k = some v) :
    (∃ v1, (e1.vec g).find k = some v1) ∧
    ((g ≠ .locustErrors → ∀ stats r, csvStatsFile = some stats → Line.fields r ∈ stats →
        ¬ isStatsSentinel r → labelValues r [0, 1] ≠ some k) →
     (g = .locustErrors → ∀ failures r, csvFailureFile = some failures →
        Line.fields r ∈ failures → r[0]? ≠ some "Method" →
        labelValues r [0, 1, 2] ≠ some k) →
     (e1.vec g).find k = some v) := by
  obtain ⟨e2, hfr1, hfr2⟩ := scrape_frame e csvStatsFile csvFailureFile
  rw [h] at hfr2
  simp only [Run.exporter] at hfr2
  obtain ⟨_, _, hfam1, hkeep1, hmono1⟩ := hfr1
  obtain ⟨_, _, hfam2, hkeep2, hmono2⟩ := hfr2
  constructor
  · have hne : (e1.vec g).find k ≠ none := by
      apply hmono2
      apply hmono1
      show (e.vec g).find k ≠ none
      rw [hv]
      simp
    cases hf : (e1.vec g).find k with
    | none => exact absurd hf hne
    | some v1 => exact ⟨v1, rfl⟩
  · intro hstats hfail
    by_cases hg : g = .locustErrors
    · have h1 : e2.vec g = e.vec g := by
        rw [hfam1 g (by rw [hg]; decide)]
      rw [hkeep2 g k (by
        rintro ⟨failures, r, hff, hr, hm, hl⟩
        exact hfail hg failures r hff hr hm hl), h1]
      exact hv
    · have h2 : e1.vec g = e2.vec g := hfam2 g (by simpa using hg)
      rw [h2, hkeep1 g k (by
        rintro ⟨stats, r, hsf, hr, hs, hl⟩
        exact hstats hg stats r hsf hr hs hl)]
      exact hv

/-- C10, on a store holding current_rps 1 under ("PUT", "/old"), a stats file
with the example row and an empty failures file: `scrape` returns and the old
entry is still there with its value. -/
theorem C10_no_family_shrinks_witness :
    (∃ v1, ((scrape (NewExporter.put .locustCurrentRps ["PUT", "/old"] Float64.one)
        (some [Line.fields exampleStatsRow]) (some [])).exporter.vec
          .locustCurrentRps).find ["PUT", "/old"] = some v1) ∧
    ((scrape (NewExporter.put .locustCurrentRps ["PUT", "/old"] Float64.one)
        (some [Line.fields exampleStatsRow]) (some [])).exporter.vec
          .locustCurrentRps).find ["PUT", "/old"] = some Float64.one := by
  have h := C10_no_family_shrinks
    (NewExporter.put .locustCurrentRps ["PUT", "/old"] Float64.one)
    (scrape (NewExporter.put .locustCurrentRps ["PUT", "/old"] Float64.one)
      (some [Line.fields exampleStatsRow]) (some [])).exporter
    (some [Line.fields exampleStatsRow]) (some []) Float64.one rfl
    .locustCurrentRps ["PUT", "/old"] Float64.one (by decide)
  refine ⟨h.1, h.2 ?_ ?_⟩
  · intro _ stats r hsf hr _
    simp only [Option.some.injEq] at hsf
    subst hsf
    simp only [List.mem_singleton, Line.fields.injEq] at hr
    subst hr
    decide
  · intro hg
    exact absurd hg (by decide)

end LocustExporter
